import Mathlib

/-!
Verification development for the flv.js I/O core: the `IOController` stash
engine (`src/io/io-controller.js`), the transport loaders
(`fetch-stream-loader.js`, `xhr-moz-chunked-loader.js`, `xhr-range-loader.js`,
`websocket-loader.js`) and the `SpeedSampler` (`speed-sampler.js`).

The JavaScript source is shallowly embedded: every class is a structure, every
method a pure function from the old state (plus the event's inputs) to the new
state, and the externally visible effects (dispatches to the consumer, loader
aborts/opens, callback invocations) are returned as an explicit action list.
Byte buffers (`ArrayBuffer`) are `List ℕ`; timestamps and byte counters inside
the sampler are `ℚ` because the source computes with fractional
milliseconds and fractional KiB/s.
-/

namespace Flv

/-- Models `TypedArray.set(src, offset)` into a view of `dst` starting at
`offset`: within bounds (`offset + src.length ≤ dst.length`, which holds at
every call site reached in these proofs) it overwrites `dst[offset ..
offset+src.length)` with `src`, as the source's `Uint8Array.set` does. -/
def arraySet (dst src : List ℕ) (offset : ℕ) : List ℕ :=
  dst.take offset ++ src ++ dst.drop (offset + src.length)

/-! ## SpeedSampler (`src/io/speed-sampler.js`) -/

/-- State of `SpeedSampler`; all five counters, as in the constructor.
Times are in milliseconds. -/
structure SpeedSampler where
  firstCheckpoint : ℚ
  lastCheckpoint : ℚ
  intervalBytes : ℚ
  totalBytes : ℚ
  lastSecondBytes : ℚ
deriving Repr, DecidableEq

/-- `SpeedSampler.reset()`: zero all five counters. -/
def SpeedSampler.reset : SpeedSampler := ⟨0, 0, 0, 0, 0⟩

/-- `SpeedSampler.addBytes(bytes)`; `now` is the value `this._now()` returns
during the call. -/
def SpeedSampler.addBytes (s : SpeedSampler) (now bytes : ℚ) : SpeedSampler :=
  if s.firstCheckpoint = 0 then
    { s with firstCheckpoint := now, lastCheckpoint := now,
             intervalBytes := s.intervalBytes + bytes,
             totalBytes := s.totalBytes + bytes }
  else if now - s.lastCheckpoint < 1000 then
    { s with intervalBytes := s.intervalBytes + bytes,
             totalBytes := s.totalBytes + bytes }
  else
    { s with lastSecondBytes := s.intervalBytes, intervalBytes := bytes,
             totalBytes := s.totalBytes + bytes, lastCheckpoint := now }

/-- The getter `currentKBps`, which first mutates the sampler through
`addBytes(0)`; returns the value and the mutated state. -/
def SpeedSampler.currentKBpsRun (s : SpeedSampler) (now : ℚ) : ℚ × SpeedSampler :=
  let s' := s.addBytes now 0
  let durationSeconds := (now - s'.lastCheckpoint) / 1000
  let durationSeconds := if durationSeconds = 0 then 1 else durationSeconds
  (s'.intervalBytes / durationSeconds / 1024, s')

/-- Value of the `currentKBps` getter. -/
def SpeedSampler.currentKBps (s : SpeedSampler) (now : ℚ) : ℚ :=
  (s.currentKBpsRun now).1

/-- The getter `lastSecondKBps`: `addBytes(0)`, then the branch on
`_lastSecondBytes` and on the time since the last checkpoint (the
`this.currentKBps` branch re-runs `addBytes(0)` on the already-mutated
state, exactly as the source getter does). -/
def SpeedSampler.lastSecondKBpsRun (s : SpeedSampler) (now : ℚ) : ℚ × SpeedSampler :=
  let s' := s.addBytes now 0
  if s'.lastSecondBytes ≠ 0 then
    (s'.lastSecondBytes / 1024, s')
  else if now - s'.lastCheckpoint ≥ 500 then
    s'.currentKBpsRun now
  else
    (0, s')

/-- Value of the `lastSecondKBps` getter. -/
def SpeedSampler.lastSecondKBps (s : SpeedSampler) (now : ℚ) : ℚ :=
  (s.lastSecondKBpsRun now).1

/-! ## Speed normalization (`IOController._normalizeSpeed`,
`RangeLoader._normalizeSpeed`) -/

/-- One iteration bound of the binary-search loop. The source's `while` loop
is modelled with explicit fuel; the loop body is copied verbatim (bounds are
`ℤ` because `ubound = mid - 1` may reach `-1`).  `none` models the loop
exiting without a `return` (the source would yield `undefined`), which is
proved unreachable for the inputs that occur. -/
def nsLoop (list : List ℕ) (input : ℚ) : ℕ → ℤ → ℤ → Option ℕ
  | 0, _, _ => none
  | fuel + 1, lbound, ubound =>
    if lbound ≤ ubound then
      let last : ℤ := (list.length : ℤ) - 1
      let mid : ℤ := lbound + (ubound - lbound) / 2
      if mid = last ∨
         (input ≥ (list.getD mid.toNat 0 : ℚ) ∧ input < (list.getD (mid.toNat + 1) 0 : ℚ)) then
        some (list.getD mid.toNat 0)
      else if ((list.getD mid.toNat 0 : ℕ) : ℚ) < input then
        nsLoop list input fuel (mid + 1) ubound
      else
        nsLoop list input fuel lbound (mid - 1)
    else none

/-- `_normalizeSpeed(input)` over a normalization ladder `list`.  The fuel
`list.length + 1` strictly exceeds the number of iterations the loop can make
(each iteration shrinks `ubound - lbound`). -/
def normalizeSpeed (list : List ℕ) (input : ℚ) : Option ℕ :=
  if input < (list.getD 0 0 : ℚ) then some (list.getD 0 0)
  else nsLoop list input (list.length + 1) 0 ((list.length : ℤ) - 1)

/-- `IOController._speedNormalizeList`. -/
def speedNormalizeList : List ℕ := [64, 128, 256, 384, 512, 768, 1024, 1536, 2048, 3072, 4096]

/-- `RangeLoader._chunkSizeKBList`. -/
def chunkSizeKBList : List ℕ :=
  [128, 256, 384, 512, 768, 1024, 1536, 2048, 3072, 4096, 5120, 6144, 7168, 8192]

/-! ## Loader status machine (`src/io/loader.js`) -/

/-- `LoaderStatus`: `kIdle = 0`, `kConnecting = 1`, `kBuffering = 2`,
`kError = 3`, `kComplete = 4`. -/
inductive LoaderStatus where
  | kIdle | kConnecting | kBuffering | kError | kComplete
deriving Repr, DecidableEq

/-- `LoaderErrors` from `loader.js`. -/
inductive LoaderError where
  | ok
  | exceptionErr
  | httpStatusCodeInvalid
  | connectingTimeout
  | earlyEof
  | unrecoverableEarlyEof
deriving Repr, DecidableEq

/-- `BaseLoader.isWorking()`: status is `kConnecting` or `kBuffering`. -/
def loaderIsWorking (status : LoaderStatus) : Bool :=
  status = LoaderStatus.kConnecting ∨ status = LoaderStatus.kBuffering

/-! ## Loader `abort()` implementations.  Only the fields these methods touch
are modelled; the XHR / fetch / WebSocket side effects are external. -/

/-- State of `FetchStreamLoader` relevant to `abort()`. -/
structure FetchStreamLoader where
  status : LoaderStatus
  requestAbort : Bool
deriving Repr, DecidableEq

/-- `FetchStreamLoader.abort()`: only sets `_requestAbort = true`; the status
field is not assigned. -/
def FetchStreamLoader.abort (l : FetchStreamLoader) : FetchStreamLoader :=
  { l with requestAbort := true }

/-- State of `MozChunkedLoader` relevant to `abort()`. -/
structure MozChunkedLoader where
  status : LoaderStatus
  requestAbort : Bool
deriving Repr, DecidableEq

/-- `MozChunkedLoader.abort()`: sets `_requestAbort = true`, aborts the xhr,
and assigns `_status = LoaderStatus.kComplete`. -/
def MozChunkedLoader.abort (l : MozChunkedLoader) : MozChunkedLoader :=
  { l with requestAbort := true, status := LoaderStatus.kComplete }

/-- State of `RangeLoader` relevant to `abort()`. -/
structure RangeLoaderAbortState where
  status : LoaderStatus
  requestAbort : Bool
deriving Repr, DecidableEq

/-- `RangeLoader.abort()`: sets `_requestAbort = true`, runs `_internalAbort()`
(xhr teardown), and assigns `_status = LoaderStatus.kComplete`. -/
def RangeLoaderAbortState.abort (l : RangeLoaderAbortState) : RangeLoaderAbortState :=
  { l with requestAbort := true, status := LoaderStatus.kComplete }

/-- State of `WebSocketLoader` relevant to `abort()`.  `wsReadyState` is the
underlying socket's `readyState` (`none` once `_ws` is null). -/
structure WebSocketLoader where
  status : LoaderStatus
  requestAbort : Bool
  wsReadyState : Option ℕ
deriving Repr, DecidableEq

/-- `WebSocketLoader.abort()`: if the socket is CONNECTING (0) or OPEN (1),
set `_requestAbort` and close it; then null `_ws` and assign
`_status = LoaderStatus.kComplete` unconditionally. -/
def WebSocketLoader.abort (l : WebSocketLoader) : WebSocketLoader :=
  let l :=
    if l.wsReadyState = some 0 ∨ l.wsReadyState = some 1 then
      { l with requestAbort := true }
    else l
  { l with wsReadyState := none, status := LoaderStatus.kComplete }

/-! ## RangeLoader sub-range chunking (`src/io/xhr-range-loader.js`) -/

/-- The constructor's `_currentChunkSizeKB = 384`. -/
def rangeLoaderInitialChunkSizeKB : ℕ := 384

/-- The fields of `RangeLoader` that `_openSubRange` reads. -/
structure RangeLoaderFetchState where
  currentChunkSizeKB : ℕ
  rangeFrom : ℤ
  receivedLength : ℕ
  contentLength : Option ℤ
deriving Repr, DecidableEq

/-- `RangeLoader._openSubRange()`: the `{from, to}` of the next byte-range
sub-request (`_currentRequestRange`).  `to` starts as `from + chunkSize` and
is clamped to `range.from + contentLength - 1` when
`to - range.from >= contentLength`. -/
def openSubRange (l : RangeLoaderFetchState) : ℤ × ℤ :=
  let chunkSize : ℤ := (l.currentChunkSizeKB : ℤ) * 1024
  let reqFrom : ℤ := l.rangeFrom + (l.receivedLength : ℤ)
  let reqTo : ℤ := reqFrom + chunkSize
  let reqTo : ℤ :=
    match l.contentLength with
    | some cl => if reqTo - l.rangeFrom ≥ cl then l.rangeFrom + cl - 1 else reqTo
    | none => reqTo
  (reqFrom, reqTo)

/-- `RangeLoader._onLoad`'s chunk-size update: after normalizing the measured
speed over `_chunkSizeKBList`, assign `_currentChunkSizeKB = normalized` when
it changed. -/
def rangeLoaderNextChunkSizeKB (currentSpeedNormalized currentChunkSizeKB : ℕ)
    (kbps : ℚ) : ℕ × ℕ :=
  if kbps ≠ 0 then
    match normalizeSpeed chunkSizeKBList kbps with
    | some normalized =>
      if currentSpeedNormalized ≠ normalized then (normalized, normalized)
      else (currentSpeedNormalized, currentChunkSizeKB)
    | none => (currentSpeedNormalized, currentChunkSizeKB)
  else (currentSpeedNormalized, currentChunkSizeKB)

/-! ## IOController (`src/io/io-controller.js`) -/

/-- Externally visible effects of a controller method, in program order:
dispatches to the consumer (`_onDataArrival` via `_dispatchChunks`), loader
lifecycle calls, the optional callbacks, the dropped-bytes warning of
`_flushStashBuffer`, and the `IOException` thrown when a loader error has no
`onError` handler. -/
inductive Action where
  | dispatch (bytes : List ℕ) (byteStart : ℤ) (consumed : ℕ)
  | abortLoader
  | destroyLoader
  | createLoader
  | openLoader (requestFrom : ℤ)
  | cbSeeked
  | cbRecoveredEarlyEof
  | cbComplete
  | cbError (kind : LoaderError)
  | throwFatal
  | logDropped (remain : ℕ)
deriving Repr, DecidableEq

/-- The consumer (`onDataArrival` callback): receives the chunk bytes and
their absolute start offset, returns the number of bytes consumed. -/
def Consumer : Type := List ℕ → ℤ → ℕ

/-- Controller state: the stash engine, the data/range bookkeeping, the
pause/reconnect flags, the speed sampler, and Booleans abstracting whether
each optional callback slot is bound and whether the loader is working. -/
structure IOCtl where
  stashInitialSize : ℕ
  stashUsed : ℕ
  stashSize : ℕ
  bufferSize : ℕ
  stashBuffer : List ℕ
  stashByteStart : ℤ
  enableStash : Bool
  loaderNeedStash : Bool
  loaderWorking : Bool
  isLive : Bool
  totalLength : Option ℤ
  fullRequestFlag : Bool
  currentRangeFrom : ℤ
  currentRangeTo : ℤ
  speedNormalized : ℕ
  sampler : SpeedSampler
  isEarlyEofReconnecting : Bool
  paused : Bool
  resumeFrom : ℤ
  hasOnSeeked : Bool
  hasOnError : Bool
  hasOnComplete : Bool
  hasOnRecoveredEarlyEof : Bool
deriving Repr, DecidableEq

/-- `isWorking()`: the loader is working and the controller is not paused. -/
def IOCtl.isWorking (st : IOCtl) : Bool :=
  st.loaderWorking && !st.paused

/-- JavaScript truthiness of `this._totalLength` (`null` and `0` are falsy). -/
def totalLengthTruthy (t : Option ℤ) : Bool :=
  match t with
  | none => false
  | some v => v ≠ 0

/-- `_dispatchChunks(chunks, byteStart)`: record
`_currentRange.to = byteStart + chunks.byteLength - 1` and return the
consumer's `consumed`. -/
def dispatchChunks (C : Consumer) (st : IOCtl) (chunks : List ℕ) (byteStart : ℤ) :
    ℕ × IOCtl :=
  (C chunks byteStart,
   { st with currentRangeTo := byteStart + (chunks.length : ℤ) - 1 })

/-- The `while (bufferNewSize + 1M < expectedBytes) bufferNewSize *= 2` loop of
`_expandBuffer`, with explicit fuel.  The source loop diverges when
`newSize = 0` and `expectedBytes > 1 MiB` (an unreachable state: the stash
size is always positive); with the fuel used below the loop is fully executed
whenever `0 < newSize`. -/
def bufferCalcLoop : ℕ → ℕ → ℕ → ℕ
  | 0, newSize, _ => newSize
  | fuel + 1, newSize, expectedBytes =>
    if newSize + 1024 * 1024 * 1 < expectedBytes then
      bufferCalcLoop fuel (2 * newSize) expectedBytes
    else newSize

/-- The `bufferNewSize` computed by `_expandBuffer(expectedBytes)`: start from
`_stashSize`, double while `bufferNewSize + 1 MiB < expectedBytes`, then add
1 MiB. -/
def bufferCalcSize (stashSize expectedBytes : ℕ) : ℕ :=
  bufferCalcLoop expectedBytes stashSize expectedBytes + 1024 * 1024 * 1

/-- `_expandBuffer(expectedBytes)`: if the computed size equals `_bufferSize`,
return unchanged; otherwise allocate a zeroed region of the new size, copy the
first `_stashUsed` bytes into it, and install it. -/
def expandBuffer (st : IOCtl) (expectedBytes : ℕ) : IOCtl :=
  let bufferNewSize := bufferCalcSize st.stashSize expectedBytes
  if bufferNewSize = st.bufferSize then st
  else
    let newBuffer := List.replicate bufferNewSize 0
    let newBuffer :=
      if st.stashUsed > 0 then arraySet newBuffer (st.stashBuffer.take st.stashUsed) 0
      else newBuffer
    { st with stashBuffer := newBuffer, bufferSize := bufferNewSize }

/-- The `stashSizeKB` table of `_adjustStashSize(normalized)`:
`normalized` for live streams; for on-demand, `normalized` below 512,
`floor(normalized * 1.5)` in `[512, 1024]`, `normalized * 2` above. -/
def stashSizeKBCalc (isLive : Bool) (normalized : ℕ) : ℕ :=
  if isLive then normalized
  else if normalized < 512 then normalized
  else if 512 ≤ normalized ∧ normalized ≤ 1024 then 3 * normalized / 2
  else 2 * normalized

/-- `_adjustStashSize(normalized)`: compute `stashSizeKB`, clamp at 8192, grow
the buffer through `_expandBuffer` when `_bufferSize < stashSizeKB*1024 + 1MiB`
(note: `_expandBuffer` still doubles from the old `_stashSize`), then set
`_stashSize = stashSizeKB * 1024`. -/
def adjustStashSize (st : IOCtl) (normalized : ℕ) : IOCtl :=
  let stashSizeKB := stashSizeKBCalc st.isLive normalized
  let stashSizeKB := if stashSizeKB > 8192 then 8192 else stashSizeKB
  let bufferSize := stashSizeKB * 1024 + 1024 * 1024 * 1
  let st := if st.bufferSize < bufferSize then expandBuffer st bufferSize else st
  { st with stashSize := stashSizeKB * 1024 }

/-- `_flushStashBuffer(dropUnconsumed)`: dispatch `buffer[0..used)` at
`_stashByteStart`; on partial consumption either drop (log and zero) or
compact the unconsumed tail to the front; returns the new state, the emitted
actions, and the function's return value. -/
def flushStashBuffer (C : Consumer) (st : IOCtl) (dropUnconsumed : Bool) :
    IOCtl × List Action × ℕ :=
  if st.stashUsed > 0 then
    let buffer := st.stashBuffer.take st.stashUsed
    let r := dispatchChunks C st buffer st.stashByteStart
    let consumed := r.1
    let st := r.2
    let act := Action.dispatch buffer st.stashByteStart consumed
    let remain := buffer.length - consumed
    if consumed < buffer.length then
      if dropUnconsumed then
        ({ st with stashUsed := 0, stashByteStart := 0 },
         [act, Action.logDropped remain], remain)
      else
        if consumed > 0 then
          let remainArray := buffer.drop consumed
          ({ st with stashBuffer := arraySet st.stashBuffer remainArray 0,
                     stashUsed := remainArray.length,
                     stashByteStart := st.stashByteStart + consumed },
           [act], 0)
        else (st, [act], 0)
    else
      ({ st with stashUsed := 0, stashByteStart := 0 }, [act], remain)
  else (st, [], 0)

/-- `_createLoader()`: a fresh loader instance; when its `needStashBuffer`
is false the controller turns `_enableStash` off. -/
def createLoader (st : IOCtl) : IOCtl :=
  if st.loaderNeedStash then st else { st with enableStash := false }

/-- `_internalSeek(bytes, dropUnconsumed)`: abort a working loader, flush the
stash with the given policy, destroy and re-create the loader, reset the range
to `{from: bytes, to: -1}`, reset the sampler and the stash size, open the new
loader, and fire `onSeeked` when bound. -/
def internalSeek (C : Consumer) (st : IOCtl) (bytes : ℤ) (dropUnconsumed : Bool) :
    IOCtl × List Action :=
  let p :=
    if st.loaderWorking then ({ st with loaderWorking := false }, [Action.abortLoader])
    else (st, ([] : List Action))
  let st := p.1
  let fl := flushStashBuffer C st dropUnconsumed
  let st := fl.1
  let st := { st with currentRangeFrom := bytes, currentRangeTo := -1,
                      sampler := SpeedSampler.reset,
                      stashSize := st.stashInitialSize }
  let st := createLoader st
  let st := { st with loaderWorking := true }
  (st, p.2 ++ fl.2.1 ++
    [Action.destroyLoader, Action.createLoader, Action.openLoader bytes] ++
    (if st.hasOnSeeked then [Action.cbSeeked] else []))

/-- `open(optionalFrom)`: set `_currentRange = {from: optionalFrom || 0, to: -1}`,
reset the sampler, raise `_fullRequestFlag` when no (truthy) start was given,
and open the loader. -/
def openCtl (st : IOCtl) (optionalFrom : Option ℤ) : IOCtl × List Action :=
  let fromTruthy :=
    match optionalFrom with
    | none => false
    | some v => v ≠ 0
  let st := { st with
    currentRangeFrom := if fromTruthy then optionalFrom.getD 0 else 0,
    currentRangeTo := -1,
    sampler := SpeedSampler.reset,
    fullRequestFlag := if fromTruthy then st.fullRequestFlag else true,
    loaderWorking := true }
  (st, [Action.openLoader st.currentRangeFrom])

/-- `pause()`: no-op unless working; otherwise abort the loader, set
`_resumeFrom` from the stash start (re-winding `_currentRange.to`) or from
`_currentRange.to + 1`, discard the stash, and set `_paused`. -/
def pause (st : IOCtl) : IOCtl × List Action :=
  if st.isWorking then
    let st := { st with loaderWorking := false }
    let st :=
      if st.stashUsed ≠ 0 then
        { st with resumeFrom := st.stashByteStart,
                  currentRangeTo := st.stashByteStart - 1 }
      else
        { st with resumeFrom := st.currentRangeTo + 1 }
    ({ st with stashUsed := 0, stashByteStart := 0, paused := true },
     [Action.abortLoader])
  else (st, [])

/-- `resume()`: if paused, clear the pause flag, take `_resumeFrom`, and
`_internalSeek(bytes, true)`. -/
def resume (C : Consumer) (st : IOCtl) : IOCtl × List Action :=
  if st.paused then
    let bytes := st.resumeFrom
    internalSeek C { st with paused := false, resumeFrom := 0 } bytes true
  else (st, [])

/-- `seek(bytes)`: clear the pause flag, zero the stash, and
`_internalSeek(bytes, true)`. -/
def seek (C : Consumer) (st : IOCtl) (bytes : ℤ) : IOCtl × List Action :=
  internalSeek C
    { st with paused := false, stashUsed := 0, stashByteStart := 0 } bytes true

/-- `_onLoaderComplete(from, to)`: force-flush dropping unconsumed data, then
fire `onComplete` when bound. -/
def onLoaderComplete (C : Consumer) (st : IOCtl) : IOCtl × List Action :=
  let fl := flushStashBuffer C st true
  (fl.1, fl.2.1 ++ (if st.hasOnComplete then [Action.cbComplete] else []))

/-- `_onLoaderError(type, data)`: flush keeping unconsumed data; escalate to
`UnrecoverableEarlyEof` when already reconnecting; on a (still) recoverable
`EarlyEof` of an on-demand stream with known total length, either reconnect
via `_internalSeek(_currentRange.to + 1, false)` when bytes are missing or
silently `return`; every other kind falls through to `onError` (or a thrown
`IOException` when unbound). -/
def onLoaderError (C : Consumer) (st : IOCtl) (kind : LoaderError) :
    IOCtl × List Action :=
  let fl := flushStashBuffer C st false
  let st := fl.1
  let aF := fl.2.1
  let p :=
    if st.isEarlyEofReconnecting then
      (LoaderError.unrecoverableEarlyEof, { st with isEarlyEofReconnecting := false })
    else (kind, st)
  let kind := p.1
  let st := p.2
  if kind = LoaderError.earlyEof ∧ st.isLive = false ∧
      totalLengthTruthy st.totalLength then
    let nextFrom := st.currentRangeTo + 1
    if nextFrom < st.totalLength.getD 0 then
      let st := { st with isEarlyEofReconnecting := true }
      let r := internalSeek C st nextFrom false
      (r.1, aF ++ r.2)
    else
      (st, aF)
  else
    let kind := if kind = LoaderError.earlyEof then LoaderError.unrecoverableEarlyEof else kind
    (st, aF ++ [if st.hasOnError then Action.cbError kind else Action.throwFatal])

/-- `_onLoaderChunkArrival(chunk, byteStart, receivedLength)`: the chunk
arrival algorithm.  Requires `onDataArrival` to be bound (the consumer `C`
models the bound callback); drops the chunk when paused; clears the early-EOF
reconnection flag; feeds the sampler and re-adjusts the stash size on a speed
change; then runs the stash-disabled or stash-enabled dispatch discipline. -/
def onLoaderChunkArrival (C : Consumer) (st : IOCtl) (chunk : List ℕ)
    (byteStart : ℤ) (now : ℚ) : IOCtl × List Action :=
  if st.paused then (st, [])
  else
    let p :=
      if st.isEarlyEofReconnecting then
        ({ st with isEarlyEofReconnecting := false },
         if st.hasOnRecoveredEarlyEof then [Action.cbRecoveredEarlyEof] else [])
      else (st, ([] : List Action))
    let st := p.1
    let acts := p.2
    let st := { st with sampler := st.sampler.addBytes now (chunk.length : ℚ) }
    let kb := st.sampler.lastSecondKBpsRun now
    let st := { st with sampler := kb.2 }
    let st :=
      if kb.1 ≠ 0 then
        match normalizeSpeed speedNormalizeList kb.1 with
        | some normalized =>
          if st.speedNormalized ≠ normalized then
            adjustStashSize { st with speedNormalized := normalized } normalized
          else st
        | none => st
      else st
    if !st.enableStash then
      -- stash disabled
      if st.stashUsed = 0 then
        let r := dispatchChunks C st chunk byteStart
        let consumed := r.1
        let st := r.2
        let acts := acts ++ [Action.dispatch chunk byteStart consumed]
        if consumed < chunk.length then
          let remain := chunk.length - consumed
          let st := if remain > st.bufferSize then expandBuffer st remain else st
          let st := { st with
            stashBuffer := arraySet st.stashBuffer (chunk.drop consumed) 0,
            stashUsed := st.stashUsed + remain,
            stashByteStart := byteStart + consumed }
          (st, acts)
        else (st, acts)
      else
        let st :=
          if st.stashUsed + chunk.length > st.bufferSize then
            expandBuffer st (st.stashUsed + chunk.length)
          else st
        let st := { st with
          stashBuffer := arraySet st.stashBuffer chunk st.stashUsed,
          stashUsed := st.stashUsed + chunk.length }
        let buffer := st.stashBuffer.take st.stashUsed
        let r := dispatchChunks C st buffer st.stashByteStart
        let consumed := r.1
        let st := r.2
        let acts := acts ++ [Action.dispatch buffer st.stashByteStart consumed]
        let st :=
          if consumed < st.stashUsed ∧ consumed > 0 then
            { st with stashBuffer := arraySet st.stashBuffer (st.stashBuffer.drop consumed) 0 }
          else st
        ({ st with stashUsed := st.stashUsed - consumed,
                   stashByteStart := st.stashByteStart + consumed }, acts)
    else
      -- stash enabled
      let st :=
        if st.stashUsed = 0 ∧ st.stashByteStart = 0 then
          { st with stashByteStart := byteStart }
        else st
      if st.stashUsed + chunk.length ≤ st.stashSize then
        ({ st with
            stashBuffer := arraySet st.stashBuffer chunk st.stashUsed,
            stashUsed := st.stashUsed + chunk.length }, acts)
      else
        if st.stashUsed > 0 then
          let buffer := st.stashBuffer.take st.stashUsed
          let r := dispatchChunks C st buffer st.stashByteStart
          let consumed := r.1
          let st := r.2
          let acts := acts ++ [Action.dispatch buffer st.stashByteStart consumed]
          let st :=
            if consumed < buffer.length then
              if consumed > 0 then
                let remainArray := buffer.drop consumed
                { st with stashBuffer := arraySet st.stashBuffer remainArray 0,
                          stashUsed := remainArray.length,
                          stashByteStart := st.stashByteStart + consumed }
              else st
            else
              { st with stashUsed := 0, stashByteStart := st.stashByteStart + consumed }
          let st :=
            if st.stashUsed + chunk.length > st.bufferSize then
              expandBuffer st (st.stashUsed + chunk.length)
            else st
          ({ st with
              stashBuffer := arraySet st.stashBuffer chunk st.stashUsed,
              stashUsed := st.stashUsed + chunk.length }, acts)
        else
          let r := dispatchChunks C st chunk byteStart
          let consumed := r.1
          let st := r.2
          let acts := acts ++ [Action.dispatch chunk byteStart consumed]
          if consumed < chunk.length then
            let remain := chunk.length - consumed
            let st := if remain > st.bufferSize then expandBuffer st remain else st
            (({ st with
                stashBuffer := arraySet st.stashBuffer (chunk.drop consumed) 0,
                stashUsed := st.stashUsed + remain,
                stashByteStart := byteStart + consumed } : IOCtl), acts)
          else (st, acts)

/-- The controller state right after the constructor, for a configuration
giving the stash initial size, the stash toggle, liveness, the optional known
filesize, and which callbacks get bound before streaming starts. -/
def initialController (cfgStashInitialSize : Option ℕ) (cfgEnableStash : Bool)
    (cfgIsLive : Bool) (filesize : Option ℤ) (needStash : Bool)
    (hasOnSeeked hasOnError hasOnComplete hasOnRecoveredEarlyEof : Bool) : IOCtl :=
  let stashInitialSize :=
    match cfgStashInitialSize with
    | some v => if v > 0 then v else 1024 * 384
    | none => 1024 * 384
  { stashInitialSize := stashInitialSize
    stashUsed := 0
    stashSize := stashInitialSize
    bufferSize := 1024 * 1024 * 3
    stashBuffer := List.replicate (1024 * 1024 * 3) 0
    stashByteStart := 0
    enableStash := cfgEnableStash && needStash
    loaderNeedStash := needStash
    loaderWorking := false
    isLive := cfgIsLive
    totalLength := match filesize with
      | some v => if v ≠ 0 then some v else none
      | none => none
    fullRequestFlag := false
    currentRangeFrom := 0
    currentRangeTo := -1
    speedNormalized := 0
    sampler := SpeedSampler.reset
    isEarlyEofReconnecting := false
    paused := false
    resumeFrom := 0
    hasOnSeeked := hasOnSeeked
    hasOnError := hasOnError
    hasOnComplete := hasOnComplete
    hasOnRecoveredEarlyEof := hasOnRecoveredEarlyEof }

/-! ## Auxiliary definitions used by the statements below -/

/-- `j` is the index the binary search of `_normalizeSpeed` must return: its
entry is `≤ input` and it is the last such entry (either the top of the ladder
or the next entry exceeds `input`). -/
def goodIdx (list : List ℕ) (input : ℚ) (j : ℤ) : Prop :=
  0 ≤ j ∧ j ≤ (list.length : ℤ) - 1 ∧
  ((list.getD j.toNat 0 : ℚ)) ≤ input ∧
  (j = (list.length : ℤ) - 1 ∨ input < (list.getD (j.toNat + 1) 0 : ℚ))

/-- The `(byte_start, consumed)` trace of the dispatches in an action list. -/
def dispatchLog : List Action → List (ℤ × ℕ)
  | [] => []
  | Action.dispatch _ s c :: rest => (s, c) :: dispatchLog rest
  | _ :: rest => dispatchLog rest

/-- A consumer that accepts every byte offered. -/
def fullConsumer : Consumer := fun bs _ => bs.length

/-- A consumer that always reports 60 bytes consumed. -/
def sixtyConsumer : Consumer := fun _ _ => 60

/-- A consumer that consumes nothing. -/
def zeroConsumer : Consumer := fun _ _ => 0

/-- Controller opened at offset 10 with `stashInitialSize = 4` (stash
enabled), as configured for the byte-continuity scenario. -/
def c2Controller : IOCtl :=
  (openCtl (initialController (some 4) true false none true true true true true) (some 10)).1

/-- The byte-continuity scenario: a 6-byte chunk at offset 10 (oversized for
the 4-byte stash window, dispatched directly and fully consumed), then a
2-byte chunk at offset 16 (stashed), then loader completion (flushing the
stash).  All events happen at sampler time 0. -/
def c2Run : List Action :=
  let r1 := onLoaderChunkArrival fullConsumer c2Controller [1, 2, 3, 4, 5, 6] 10 0
  let r2 := onLoaderChunkArrival fullConsumer r1.1 [7, 8] 16 0
  let r3 := onLoaderComplete fullConsumer r2.1
  r1.2 ++ r2.2 ++ r3.2

/-- The pause scenario S5: stash disabled, one 100-byte chunk at offset 0 of
which the consumer accepts 60. -/
def s5State : IOCtl :=
  (onLoaderChunkArrival sixtyConsumer
    (openCtl (initialController none false false none true true true true true) none).1
    (List.replicate 100 7) 0 0).1

/-- An on-demand controller with total length 100 whose last dispatched byte
is 99 (`current_range.to = 99`), i.e. everything has been received when the
loader reports `EarlyEof`. -/
def c1State : IOCtl :=
  { initialController none true false (some 100) true true true true true with
      currentRangeTo := 99, loaderWorking := true }

/-- The same on-demand controller mid-stream (`current_range.to = 49`,
total length 100) while an early-EOF reconnection is already in flight. -/
def c1RecState : IOCtl :=
  { c1State with currentRangeTo := 49, isEarlyEofReconnecting := true }

/-- A consumer that always accepts exactly 2 bytes. -/
def twoConsumer : Consumer := fun _ _ => 2

/-- An on-demand controller (total length 100) holding 4 stashed bytes
`[9, 8, 7, 6]` at `_stashByteStart = 20` in a small 8-byte buffer, for
exercising the error handler's flush concretely. -/
def c1StashState : IOCtl :=
  { initialController none true false (some 100) true true true true true with
      bufferSize := 8, stashBuffer := [9, 8, 7, 6, 0, 0, 0, 0], stashUsed := 4,
      stashByteStart := 20, currentRangeTo := 23, loaderWorking := true }

/-- The controller stash state right after construction with the default
configuration: `stash_size = 384 KiB`, `buffer_size = 3 MiB`. -/
def c6State : IOCtl := initialController none true false none true true true true true

/-- A small controller state for exercising `_expandBuffer` concretely:
`stash_size = 4`, `buffer_size = 8`, empty stash. -/
def c5State : IOCtl :=
  { initialController (some 4) true false none true true true true true with
      bufferSize := 8, stashBuffer := List.replicate 8 0 }

/-- Modelled from the spec: the formula the spec gives for the `currentKBps`
observable, `interval_bytes / max(1 ms, now - last_checkpoint) * 1000 / 1024`
(after the getter's implicit `add_bytes(0)` rotation), for comparison with
the source's computation. -/
def specCurrentKBps (s : SpeedSampler) (now : ℚ) : ℚ :=
  let s' := s.addBytes now 0
  s'.intervalBytes / max 1 (now - s'.lastCheckpoint) * 1000 / 1024

/-! ## Helper lemmas: the binary search of `_normalizeSpeed` -/

lemma getD_strict (list : List ℕ) (hsort : list.Pairwise (· < ·)) :
    ∀ i k : ℕ, i < k → k < list.length → list.getD i 0 < list.getD k 0 := by
  intro i k hik hk
  have hi : i < list.length := lt_trans hik hk
  rw [list.getD_eq_getElem 0 hi, list.getD_eq_getElem 0 hk]
  exact List.pairwise_iff_get.mp hsort ⟨i, hi⟩ ⟨k, hk⟩ hik

lemma getD_mono (list : List ℕ) (hsort : list.Pairwise (· < ·)) :
    ∀ i k : ℕ, i ≤ k → k < list.length → list.getD i 0 ≤ list.getD k 0 := by
  intro i k hik hk
  rcases eq_or_lt_of_le hik with rfl | hlt
  · exact le_refl _
  · exact le_of_lt (getD_strict list hsort i k hlt hk)

lemma goodIdx_unique (list : List ℕ) (input : ℚ) (hsort : list.Pairwise (· < ·))
    {i j : ℤ} (hi : goodIdx list input i) (hj : goodIdx list input j) : i = j := by
  obtain ⟨hi0, hiL, hile, hinext⟩ := hi
  obtain ⟨hj0, hjL, hjle, hjnext⟩ := hj
  by_contra hne
  wlog hij : i < j generalizing i j
  · exact this hj0 hjL hjle hjnext hi0 hiL hile hinext (Ne.symm hne)
      (lt_of_le_of_ne (not_lt.mp hij) (Ne.symm hne))
  have hiNotLast : i ≠ (list.length : ℤ) - 1 := by omega
  have hnext : input < (list.getD (i.toNat + 1) 0 : ℚ) := hinext.resolve_left hiNotLast
  have hjlt : j.toNat < list.length := by omega
  have hle : list.getD (i.toNat + 1) 0 ≤ list.getD j.toNat 0 :=
    getD_mono list hsort _ _ (by omega) hjlt
  have hle' : (list.getD (i.toNat + 1) 0 : ℚ) ≤ (list.getD j.toNat 0 : ℚ) := by
    exact_mod_cast hle
  linarith

lemma nsLoop_eq_good (list : List ℕ) (input : ℚ) (hsort : list.Pairwise (· < ·)) :
    ∀ (fuel : ℕ) (lbound ubound j : ℤ),
      (ubound - lbound).toNat < fuel →
      0 ≤ lbound → ubound ≤ (list.length : ℤ) - 1 →
      lbound ≤ j → j ≤ ubound →
      goodIdx list input j →
      nsLoop list input fuel lbound ubound = some (list.getD j.toNat 0) := by
  intro fuel
  induction fuel with
  | zero => intro l u j hfuel _ _ hlj hju; omega
  | succ fuel ih =>
    intro l u j hfuel hl0 hu hlj hju hgood
    have hlu : l ≤ u := le_trans hlj hju
    have hj0 : 0 ≤ j := le_trans hl0 hlj
    have hjLen : j.toNat < list.length := by omega
    simp only [nsLoop]
    rw [if_pos hlu]
    set m : ℤ := l + (u - l) / 2 with hm
    have hml : l ≤ m := by omega
    have hmu : m ≤ u := by omega
    have hmLen : m.toNat < list.length := by omega
    by_cases hret : m = (list.length : ℤ) - 1 ∨
        (input ≥ (list.getD m.toNat 0 : ℚ) ∧ input < (list.getD (m.toNat + 1) 0 : ℚ))
    · rw [if_pos hret]
      have hmGood : goodIdx list input m := by
        rcases hret with hml' | ⟨hge, hlt⟩
        · have hj : j = m := by omega
          rw [← hj]; exact hgood
        · exact ⟨by omega, by omega, hge, Or.inr hlt⟩
      have := goodIdx_unique list input hsort hmGood hgood
      rw [← this]
    · rw [if_neg hret]
      have hmNotLast : m ≠ (list.length : ℤ) - 1 := fun h => hret (Or.inl h)
      by_cases hlt : ((list.getD m.toNat 0 : ℕ) : ℚ) < input
      · rw [if_pos hlt]
        have hstep : m + 1 ≤ j := by
          by_contra hcon
          push_neg at hcon
          have hjm : j ≤ m := by omega
          have hge : input ≥ (list.getD m.toNat 0 : ℚ) := le_of_lt hlt
          have hnlt : ¬ input < (list.getD (m.toNat + 1) 0 : ℚ) := fun h =>
            hret (Or.inr ⟨hge, h⟩)
          push_neg at hnlt
          have hjNotLast : j ≠ (list.length : ℤ) - 1 := by omega
          have hnext : input < (list.getD (j.toNat + 1) 0 : ℚ) :=
            hgood.2.2.2.resolve_left hjNotLast
          have hmono : list.getD (j.toNat + 1) 0 ≤ list.getD (m.toNat + 1) 0 :=
            getD_mono list hsort _ _ (by omega) (by omega)
          have hmono' : (list.getD (j.toNat + 1) 0 : ℚ) ≤ (list.getD (m.toNat + 1) 0 : ℚ) := by
            exact_mod_cast hmono
          linarith
        exact ih (m + 1) u j (by omega) (by omega) hu hstep hju hgood
      · rw [if_neg hlt]
        push_neg at hlt
        have hstep : j ≤ m - 1 := by
          by_contra hcon
          push_neg at hcon
          have hmj : m ≤ j := by omega
          have hmono : list.getD m.toNat 0 ≤ list.getD j.toNat 0 :=
            getD_mono list hsort _ _ (by omega) hjLen
          have hmono' : ((list.getD m.toNat 0 : ℕ) : ℚ) ≤ (list.getD j.toNat 0 : ℚ) := by
            exact_mod_cast hmono
          have hjle : (list.getD j.toNat 0 : ℚ) ≤ input := hgood.2.2.1
          have heq : ((list.getD m.toNat 0 : ℕ) : ℚ) = input := le_antisymm (by linarith) hlt
          have hjeq : j = m := by
            by_contra hne
            have hltmj : m < j := lt_of_le_of_ne hmj (fun h => hne h.symm)
            have hstr := getD_strict list hsort m.toNat j.toNat (by omega) hjLen
            have hstr' : ((list.getD m.toNat 0 : ℕ) : ℚ) < (list.getD j.toNat 0 : ℚ) := by
              exact_mod_cast hstr
            linarith
          have hjNotLast : j ≠ (list.length : ℤ) - 1 := by omega
          have hnext : input < (list.getD (j.toNat + 1) 0 : ℚ) :=
            hgood.2.2.2.resolve_left hjNotLast
          have hge : input ≥ (list.getD m.toNat 0 : ℚ) := le_of_eq heq
          have hnltm : ¬ input < (list.getD (m.toNat + 1) 0 : ℚ) := fun h =>
            hret (Or.inr ⟨hge, h⟩)
          rw [hjeq] at hnext
          exact hnltm hnext
        exact ih l (m - 1) j (by omega) hl0 (by omega) hlj hstep hgood

lemma normalizeSpeed_eq_good (list : List ℕ) (input : ℚ) (hsort : list.Pairwise (· < ·))
    (j : ℤ) (hgood : goodIdx list input j)
    (hge : ¬ input < (list.getD 0 0 : ℚ)) :
    normalizeSpeed list input = some (list.getD j.toNat 0) := by
  rw [normalizeSpeed, if_neg hge]
  exact nsLoop_eq_good list input hsort (list.length + 1) 0 ((list.length : ℤ) - 1) j
    (by omega) le_rfl le_rfl hgood.1 hgood.2.1 hgood

lemma nsLoop_mem (list : List ℕ) (input : ℚ) :
    ∀ (fuel : ℕ) (lbound ubound : ℤ) (v : ℕ),
      0 ≤ lbound → ubound ≤ (list.length : ℤ) - 1 →
      nsLoop list input fuel lbound ubound = some v → v ∈ list := by
  intro fuel
  induction fuel with
  | zero => intro l u v _ _ h; simp [nsLoop] at h
  | succ fuel ih =>
    intro l u v hl0 hu h
    simp only [nsLoop] at h
    by_cases hlu : l ≤ u
    · rw [if_pos hlu] at h
      set m : ℤ := l + (u - l) / 2 with hm
      have hml : l ≤ m := by omega
      have hmu : m ≤ u := by omega
      have hmLen : m.toNat < list.length := by omega
      by_cases hret : m = (list.length : ℤ) - 1 ∨
          (input ≥ (list.getD m.toNat 0 : ℚ) ∧ input < (list.getD (m.toNat + 1) 0 : ℚ))
      · rw [if_pos hret] at h
        have hv : list.getD m.toNat 0 = v := Option.some.inj h
        rw [← hv, list.getD_eq_getElem 0 hmLen]
        exact List.getElem_mem _
      · rw [if_neg hret] at h
        by_cases hlt : ((list.getD m.toNat 0 : ℕ) : ℚ) < input
        · rw [if_pos hlt] at h
          exact ih (m + 1) u v (by omega) hu h
        · rw [if_neg hlt] at h
          exact ih l (m - 1) v hl0 (by omega) h
    · rw [if_neg hlu] at h
      exact absurd h (by simp)

lemma normalizeSpeed_mem (list : List ℕ) (input : ℚ) (v : ℕ)
    (hne : list ≠ []) (h : normalizeSpeed list input = some v) : v ∈ list := by
  rw [normalizeSpeed] at h
  by_cases hlt : input < (list.getD 0 0 : ℚ)
  · rw [if_pos hlt] at h
    have hv : list.getD 0 0 = v := Option.some.inj h
    have hlen : 0 < list.length := List.length_pos.mpr hne
    rw [← hv, list.getD_eq_getElem 0 hlen]
    exact List.getElem_mem _
  · rw [if_neg hlt] at h
    exact nsLoop_mem list input _ 0 _ v le_rfl le_rfl h

lemma normalizePick (q : ℚ) (j : ℕ) (hjlen : j < 11)
    (hle : ((speedNormalizeList.getD j 0 : ℕ) : ℚ) ≤ q)
    (hnext : j = 10 ∨ q < ((speedNormalizeList.getD (j + 1) 0 : ℕ) : ℚ)) :
    ∃ v : ℕ, normalizeSpeed speedNormalizeList q = some v ∧ v ∈ speedNormalizeList ∧
      (q < 64 → v = 64) ∧
      ((64:ℚ) ≤ q → (v : ℚ) ≤ q ∧ ∀ m ∈ speedNormalizeList, (m : ℚ) ≤ q → m ≤ v) := by
  have hsort : speedNormalizeList.Pairwise (· < ·) := by decide
  have hlen : speedNormalizeList.length = 11 := rfl
  have h64v : 64 ≤ speedNormalizeList.getD j 0 := by
    interval_cases j <;> decide
  have hgood : goodIdx speedNormalizeList q (j : ℤ) := by
    refine ⟨Int.natCast_nonneg j, by rw [hlen]; omega, ?_, ?_⟩
    · rw [Int.toNat_natCast]; exact hle
    · rcases hnext with h10 | hlt
      · left; rw [hlen, h10]; rfl
      · right; rw [Int.toNat_natCast]; exact hlt
  have hq64 : (64:ℚ) ≤ q := le_trans (by exact_mod_cast h64v) hle
  have hmem : speedNormalizeList.getD j 0 ∈ speedNormalizeList := by
    rw [speedNormalizeList.getD_eq_getElem 0 (by omega)]
    exact List.getElem_mem _
  refine ⟨speedNormalizeList.getD j 0, ?_, hmem, ?_, ?_⟩
  · have := normalizeSpeed_eq_good speedNormalizeList q hsort (j : ℤ) hgood
      (not_lt.mpr (le_trans (by norm_num [speedNormalizeList]) hq64))
    rw [Int.toNat_natCast] at this
    exact this
  · intro h; exact absurd h (not_lt.mpr hq64)
  · intro _
    refine ⟨hle, ?_⟩
    intro m hm hmq
    obtain ⟨i, hi, rfl⟩ := List.mem_iff_getElem.mp hm
    by_cases hij : i ≤ j
    · have := getD_mono speedNormalizeList hsort i j hij (by omega)
      rw [speedNormalizeList.getD_eq_getElem 0 (by omega)] at this
      exact this
    · push_neg at hij
      exfalso
      have hjne : j ≠ 10 := by rw [hlen] at hi; omega
      have hqlt : q < ((speedNormalizeList.getD (j + 1) 0 : ℕ) : ℚ) := hnext.resolve_left hjne
      have hmono : speedNormalizeList.getD (j + 1) 0 ≤ speedNormalizeList.getD i 0 :=
        getD_mono speedNormalizeList hsort _ _ (by omega) hi
      have hgi : speedNormalizeList.getD i 0 = speedNormalizeList[i] :=
        speedNormalizeList.getD_eq_getElem 0 hi
      have hmono' : ((speedNormalizeList.getD (j + 1) 0 : ℕ) : ℚ) ≤ (speedNormalizeList[i] : ℚ) := by
        rw [← hgi]; exact_mod_cast hmono
      linarith

/-! ## Claim theorems -/

/-- Claim C3: for every input `kbps > 0` the controller speed normalization
returns the largest ladder entry `≤ kbps` (inputs below 64 map to 64), and in
particular 63, 64, 65, 383, 384, 385, 5000 normalize to 64, 64, 64, 256, 384,
384, 4096. -/
theorem c3_speedNormalization :
    (∀ q : ℚ, 0 < q → ∃ v : ℕ,
        normalizeSpeed speedNormalizeList q = some v ∧ v ∈ speedNormalizeList ∧
        (q < 64 → v = 64) ∧
        ((64:ℚ) ≤ q → (v : ℚ) ≤ q ∧ ∀ m ∈ speedNormalizeList, (m : ℚ) ≤ q → m ≤ v)) ∧
    normalizeSpeed speedNormalizeList 63 = some 64 ∧
    normalizeSpeed speedNormalizeList 64 = some 64 ∧
    normalizeSpeed speedNormalizeList 65 = some 64 ∧
    normalizeSpeed speedNormalizeList 383 = some 256 ∧
    normalizeSpeed speedNormalizeList 384 = some 384 ∧
    normalizeSpeed speedNormalizeList 385 = some 384 ∧
    normalizeSpeed speedNormalizeList 5000 = some 4096 := by
  refine ⟨?_, by decide, by decide, by decide, by decide, by decide, by decide, by decide⟩
  intro q hq
  rcases lt_or_le q 64 with h0 | h0
  · refine ⟨64, ?_, by norm_num [speedNormalizeList], fun _ => rfl,
      fun h => absurd h (not_le.mpr h0)⟩
    rw [normalizeSpeed, if_pos (by show q < ((64:ℕ):ℚ); push_cast; exact h0)]
    rfl
  rcases lt_or_le q 128 with h1 | h1
  · exact normalizePick q 0 (by norm_num) (by show ((64:ℕ):ℚ) ≤ q; push_cast; linarith)
      (Or.inr (by show q < ((128:ℕ):ℚ); push_cast; linarith))
  rcases lt_or_le q 256 with h2 | h2
  · exact normalizePick q 1 (by norm_num) (by show ((128:ℕ):ℚ) ≤ q; push_cast; linarith)
      (Or.inr (by show q < ((256:ℕ):ℚ); push_cast; linarith))
  rcases lt_or_le q 384 with h3 | h3
  · exact normalizePick q 2 (by norm_num) (by show ((256:ℕ):ℚ) ≤ q; push_cast; linarith)
      (Or.inr (by show q < ((384:ℕ):ℚ); push_cast; linarith))
  rcases lt_or_le q 512 with h4 | h4
  · exact normalizePick q 3 (by norm_num) (by show ((384:ℕ):ℚ) ≤ q; push_cast; linarith)
      (Or.inr (by show q < ((512:ℕ):ℚ); push_cast; linarith))
  rcases lt_or_le q 768 with h5 | h5
  · exact normalizePick q 4 (by norm_num) (by show ((512:ℕ):ℚ) ≤ q; push_cast; linarith)
      (Or.inr (by show q < ((768:ℕ):ℚ); push_cast; linarith))
  rcases lt_or_le q 1024 with h6 | h6
  · exact normalizePick q 5 (by norm_num) (by show ((768:ℕ):ℚ) ≤ q; push_cast; linarith)
      (Or.inr (by show q < ((1024:ℕ):ℚ); push_cast; linarith))
  rcases lt_or_le q 1536 with h7 | h7
  · exact normalizePick q 6 (by norm_num) (by show ((1024:ℕ):ℚ) ≤ q; push_cast; linarith)
      (Or.inr (by show q < ((1536:ℕ):ℚ); push_cast; linarith))
  rcases lt_or_le q 2048 with h8 | h8
  · exact normalizePick q 7 (by norm_num) (by show ((1536:ℕ):ℚ) ≤ q; push_cast; linarith)
      (Or.inr (by show q < ((2048:ℕ):ℚ); push_cast; linarith))
  rcases lt_or_le q 3072 with h9 | h9
  · exact normalizePick q 8 (by norm_num) (by show ((2048:ℕ):ℚ) ≤ q; push_cast; linarith)
      (Or.inr (by show q < ((3072:ℕ):ℚ); push_cast; linarith))
  rcases lt_or_le q 4096 with h10 | h10
  · exact normalizePick q 9 (by norm_num) (by show ((3072:ℕ):ℚ) ≤ q; push_cast; linarith)
      (Or.inr (by show q < ((4096:ℕ):ℚ); push_cast; linarith))
  · exact normalizePick q 10 (by norm_num) (by show ((4096:ℕ):ℚ) ≤ q; push_cast; linarith)
      (Or.inl rfl)

/-- Witness for C3: the universally quantified part applied at the concrete
input 500. -/
theorem c3_speedNormalization_witness :
    (0:ℚ) < 500 ∧ ∃ v : ℕ,
      normalizeSpeed speedNormalizeList 500 = some v ∧ v ∈ speedNormalizeList ∧
      ((500:ℚ) < 64 → v = 64) ∧
      ((64:ℚ) ≤ 500 → (v : ℚ) ≤ 500 ∧ ∀ m ∈ speedNormalizeList, (m : ℚ) ≤ 500 → m ≤ v) :=
  ⟨by norm_num, c3_speedNormalization.1 500 (by norm_num)⟩

/-- Claim C8 (corrected): `MozChunkedLoader.abort`, `RangeLoader.abort` and
`WebSocketLoader.abort` all set the status to `Complete`; `FetchStreamLoader.abort`
leaves the status unchanged (it only raises the `_requestAbort` flag, the
status moves later in the stream callbacks).  No loader's `abort` sets `Idle`
synchronously. -/
theorem c8_abortStatus :
    (∀ l : MozChunkedLoader, l.abort.status = LoaderStatus.kComplete) ∧
    (∀ l : RangeLoaderAbortState, l.abort.status = LoaderStatus.kComplete) ∧
    (∀ l : WebSocketLoader, l.abort.status = LoaderStatus.kComplete) ∧
    (∀ l : FetchStreamLoader, l.abort.status = l.status ∧ l.abort.requestAbort = true) := by
  exact ⟨fun l => rfl, fun l => rfl, fun l => rfl, fun l => ⟨rfl, rfl⟩⟩

/-- Counterexample to claim C8 as stated: aborting the chunked-XHR loader from
`Buffering` leaves the status `Complete`, not `Idle` — yet the claim says the
fetch-style and chunked-XHR loaders never end in `Complete` after `abort()`. -/
theorem c8_counterexample :
    (MozChunkedLoader.abort ⟨LoaderStatus.kBuffering, false⟩).status = LoaderStatus.kComplete ∧
    LoaderStatus.kComplete ≠ LoaderStatus.kIdle := by
  exact ⟨rfl, by decide⟩

/-- Counterexample to claim C9 as stated: `_currentChunkSizeKB` starts at 384,
not 128. -/
theorem c9_counterexample :
    rangeLoaderInitialChunkSizeKB = 384 ∧ rangeLoaderInitialChunkSizeKB ≠ 128 := by
  decide

/-- Claim C9 (corrected): the ranged loader's chunk size starts at 384 KiB (a
ladder value), every later value assigned by the speed-normalization update is
a ladder value, all ladder values lie in `[128, 8192]`, and each sub-range
starts at `range.from + received_length` with its inclusive end
`from + chunk_size` clamped to `range.from + content_length - 1` when the
content length is known. -/
theorem c9_rangeChunking :
    rangeLoaderInitialChunkSizeKB = 384 ∧
    rangeLoaderInitialChunkSizeKB ∈ chunkSizeKBList ∧
    (∀ v ∈ chunkSizeKBList, 128 ≤ v ∧ v ≤ 8192) ∧
    (∀ (q : ℚ) (v : ℕ), normalizeSpeed chunkSizeKBList q = some v → v ∈ chunkSizeKBList) ∧
    (∀ (csn cur : ℕ) (kbps : ℚ),
      (rangeLoaderNextChunkSizeKB csn cur kbps).2 = cur ∨
      (rangeLoaderNextChunkSizeKB csn cur kbps).2 ∈ chunkSizeKBList) ∧
    (∀ l : RangeLoaderFetchState,
      (openSubRange l).1 = l.rangeFrom + (l.receivedLength : ℤ) ∧
      (∀ cl : ℤ, l.contentLength = some cl →
        (openSubRange l).2 =
          min (l.rangeFrom + (l.receivedLength : ℤ) + (l.currentChunkSizeKB : ℤ) * 1024)
            (l.rangeFrom + cl - 1)) ∧
      (l.contentLength = none →
        (openSubRange l).2 = l.rangeFrom + (l.receivedLength : ℤ) +
          (l.currentChunkSizeKB : ℤ) * 1024)) := by
  refine ⟨rfl, by decide, by decide, ?_, ?_, ?_⟩
  · intro q v h
    exact normalizeSpeed_mem chunkSizeKBList q v (by decide) h
  · intro csn cur kbps
    by_cases hk : kbps ≠ 0
    · rw [rangeLoaderNextChunkSizeKB, if_pos hk]
      cases hn : normalizeSpeed chunkSizeKBList kbps with
      | none => left; rfl
      | some n =>
        by_cases hc : csn ≠ n
        · right
          dsimp only
          rw [if_pos hc]
          exact normalizeSpeed_mem chunkSizeKBList kbps n (by decide) hn
        · left
          dsimp only
          rw [if_neg hc]
    · left; rw [rangeLoaderNextChunkSizeKB, if_neg hk]
  · intro l
    refine ⟨rfl, ?_, ?_⟩
    · intro cl hcl
      simp only [openSubRange, hcl]
      split_ifs with h <;> omega
    · intro hcl
      simp only [openSubRange, hcl]

/-- Witness for C9: the clamp formula applied to a loader that has received
nothing of a 1000000-byte content, and ladder membership of a normalized
speed. -/
theorem c9_rangeChunking_witness :
    (⟨384, 0, 0, some 1000000⟩ : RangeLoaderFetchState).contentLength = some 1000000 ∧
    (openSubRange ⟨384, 0, 0, some 1000000⟩).2 =
      min ((0:ℤ) + ((0:ℕ) : ℤ) + ((384:ℕ) : ℤ) * 1024) ((0:ℤ) + 1000000 - 1) ∧
    normalizeSpeed chunkSizeKBList 700 = some 512 ∧ 512 ∈ chunkSizeKBList :=
  ⟨rfl, (c9_rangeChunking.2.2.2.2.2 ⟨384, 0, 0, some 1000000⟩).2.1 1000000 rfl,
    by decide, c9_rangeChunking.2.2.2.1 700 512 (by decide)⟩

/-- Claim C10: `seek(bytes)` never dispatches to the consumer and never logs a
drop: it zeroes the stash before `internal_seek`, so the flush inside finds an
empty stash; the only actions are the loader teardown/re-open and possibly
`on_seeked`. -/
theorem c10_seekSilent (C : Consumer) (st : IOCtl) (bytes : ℤ) :
    (∀ (b : List ℕ) (s : ℤ) (c : ℕ), Action.dispatch b s c ∉ (seek C st bytes).2) ∧
    (∀ r : ℕ, Action.logDropped r ∉ (seek C st bytes).2) ∧
    (∀ a ∈ (seek C st bytes).2,
      a = Action.abortLoader ∨ a = Action.destroyLoader ∨ a = Action.createLoader ∨
      a = Action.openLoader bytes ∨ a = Action.cbSeeked) := by
  have hempty : (seek C st bytes).2 =
      (if st.loaderWorking = true then [Action.abortLoader] else []) ++
      [Action.destroyLoader, Action.createLoader, Action.openLoader bytes] ++
      (if st.hasOnSeeked = true then [Action.cbSeeked] else []) := by
    rw [seek, internalSeek]
    by_cases hw : st.loaderWorking = true <;>
      by_cases hs : st.hasOnSeeked = true <;>
      simp [flushStashBuffer, createLoader, hw, hs] <;>
      by_cases hn : st.loaderNeedStash = true <;> simp [hn]
  rw [hempty]
  by_cases hw : st.loaderWorking = true <;> by_cases hs : st.hasOnSeeked = true <;>
    simp [hw, hs]

section
attribute [local semireducible] Rat.add Rat.sub Rat.mul Rat.inv

/-- Claim C4: `pause()` on a working controller aborts the loader and computes
`resume_from` as the next byte owed (`stash.byte_start` when the stash holds
data, rewinding `current_range.to` to `stash.byte_start - 1`; otherwise
`current_range.to + 1`), discards the stash and sets the pause flag; on a
non-working controller it is a no-op.  The S5 scenario (100-byte chunk at 0,
60 consumed) yields `resume_from = 60`, `current_range.to = 59`, empty stash. -/
theorem c4_pause (st : IOCtl) :
    (st.isWorking = true →
      (pause st).2 = [Action.abortLoader] ∧
      (pause st).1.paused = true ∧
      (pause st).1.stashUsed = 0 ∧
      (pause st).1.stashByteStart = 0 ∧
      (pause st).1.loaderWorking = false ∧
      (st.stashUsed ≠ 0 →
        (pause st).1.resumeFrom = st.stashByteStart ∧
        (pause st).1.currentRangeTo = st.stashByteStart - 1) ∧
      (st.stashUsed = 0 →
        (pause st).1.resumeFrom = st.currentRangeTo + 1 ∧
        (pause st).1.currentRangeTo = st.currentRangeTo)) ∧
    (st.isWorking = false → pause st = (st, [])) ∧
    (pause s5State).1.resumeFrom = 60 ∧
    (pause s5State).1.currentRangeTo = 59 ∧
    (pause s5State).1.stashUsed = 0 ∧
    (pause s5State).1.stashByteStart = 0 := by
  refine ⟨?_, ?_, ?_, ?_, ?_, ?_⟩
  · intro hw
    by_cases hs : st.stashUsed ≠ 0 <;>
      simp [pause, hw, hs]
  · intro hw
    simp [pause, hw]
  all_goals decide

/-- Witness for C4: the working-controller branch applied to the S5 state. -/
theorem c4_pause_witness :
    s5State.isWorking = true ∧ s5State.stashUsed ≠ 0 ∧
    (pause s5State).1.resumeFrom = s5State.stashByteStart :=
  ⟨by decide, by decide, ((c4_pause s5State).1 (by decide)).2.2.2.2.2.1 (by decide) |>.1⟩

/-- Claim C2 (violated by the code): in the stash-enabled discipline, a chunk
larger than the stash window arriving into an empty stash at a nonzero
`_stashByteStart` is dispatched directly, and when it is fully consumed
`_stashByteStart` is left stale; the next stashed bytes are then dispatched at
the stale offset.  Concretely (stash window 4, opened at offset 10): a fully
consumed 6-byte chunk at 10 followed by a 2-byte chunk at 16 and a flush
produces the dispatch trace `[(10, 6), (10, 2)]` — the second dispatch starts
at 10 instead of `10 + 6 = 16`, an overlap. -/
theorem c2_continuityViolation :
    dispatchLog c2Run = [(10, 6), (10, 2)] ∧ (10 : ℤ) ≠ 10 + (6 : ℤ) := by
  constructor
  · decide
  · decide

end

section
attribute [local semireducible] Rat.add Rat.sub Rat.mul Rat.inv

/-- Counterexample to claim C7 as stated: with 1024 bytes accumulated and the
getter queried at the very instant of the last checkpoint, the source replaces
a zero duration by 1 **second** (giving 1 KiB/s), while the claim's formula
`interval_bytes / max(1 ms, now - last_checkpoint) * 1000 / 1024` gives
1000 KiB/s. -/
theorem c7_counterexample :
    SpeedSampler.currentKBps (SpeedSampler.reset.addBytes 1000 1024) 1000 = 1 ∧
    specCurrentKBps (SpeedSampler.reset.addBytes 1000 1024) 1000 = 1000 ∧
    (1 : ℚ) ≠ 1000 := by
  refine ⟨by decide, by decide, by norm_num⟩

end

/-- Claim C7 (corrected): after the getter's implicit `add_bytes(0)` rotation,
`current_kbps` equals `interval_bytes / (now - last_checkpoint) * 1000 / 1024`
when the elapsed time is nonzero, and `interval_bytes / 1024` when it is zero
(the source substitutes 1 second — not 1 ms — for a zero duration);
`last_second_kbps` returns `last_second_bytes / 1024` when positive, else
`current_kbps` (of the rotated state) when at least 500 ms have elapsed, else 0. -/
theorem c7_samplerGetters (s : SpeedSampler) (now : ℚ) :
    (now - (s.addBytes now 0).lastCheckpoint = 0 →
      s.currentKBps now = (s.addBytes now 0).intervalBytes / 1024) ∧
    (now - (s.addBytes now 0).lastCheckpoint ≠ 0 →
      s.currentKBps now =
        (s.addBytes now 0).intervalBytes / (now - (s.addBytes now 0).lastCheckpoint)
          * 1000 / 1024) ∧
    ((s.addBytes now 0).lastSecondBytes ≠ 0 →
      s.lastSecondKBps now = (s.addBytes now 0).lastSecondBytes / 1024) ∧
    ((s.addBytes now 0).lastSecondBytes = 0 →
      500 ≤ now - (s.addBytes now 0).lastCheckpoint →
      s.lastSecondKBps now = (s.addBytes now 0).currentKBps now) ∧
    ((s.addBytes now 0).lastSecondBytes = 0 →
      now - (s.addBytes now 0).lastCheckpoint < 500 →
      s.lastSecondKBps now = 0) := by
  refine ⟨?_, ?_, ?_, ?_, ?_⟩
  · intro h
    rw [SpeedSampler.currentKBps, SpeedSampler.currentKBpsRun]
    simp only [h]
    norm_num
  · intro h
    rw [SpeedSampler.currentKBps, SpeedSampler.currentKBpsRun]
    simp only []
    rw [if_neg (by intro hz; exact h (by field_simp at hz; linarith))]
    field_simp
  · intro h
    rw [SpeedSampler.lastSecondKBps, SpeedSampler.lastSecondKBpsRun]
    rw [if_pos h]
  · intro h h500
    rw [SpeedSampler.lastSecondKBps, SpeedSampler.lastSecondKBpsRun]
    rw [if_neg (by simp [h]), if_pos h500]
    rfl
  · intro h h500
    rw [SpeedSampler.lastSecondKBps, SpeedSampler.lastSecondKBpsRun]
    rw [if_neg (by simp [h]), if_neg (by linarith)]

section
attribute [local semireducible] Rat.add Rat.sub Rat.mul Rat.inv

/-- Witness for C7: the zero-duration branch applied at a concrete sampler. -/
theorem c7_samplerGetters_witness :
    (1000 - ((SpeedSampler.reset.addBytes 1000 1024).addBytes 1000 0).lastCheckpoint = 0) ∧
    (SpeedSampler.reset.addBytes 1000 1024).currentKBps 1000 =
      ((SpeedSampler.reset.addBytes 1000 1024).addBytes 1000 0).intervalBytes / 1024 :=
  ⟨by decide, (c7_samplerGetters (SpeedSampler.reset.addBytes 1000 1024) 1000).1 (by decide)⟩

/-- Counterexample to claim C1 as stated, at two concrete controllers with
`on_error` bound. (a) `is_live = false`, total length 100 known,
`current_range.to = 99` (so `to + 1 = 100 ≥ 100`): the claim demands
escalation to `UnrecoverableEarlyEof` reported via `on_error`; the code's
handler emits no action at all (the `return` inside the `EARLY_EOF` case
swallows the error). (b) the same controller at `current_range.to = 49` while
already early-EOF-reconnecting: `to + 1 = 50 < 100`, so the claim demands a
reconnect with nothing reported; the handler instead reports
`UnrecoverableEarlyEof` and leaves the reconnect flag down. -/
theorem c1_counterexample :
    (onLoaderError zeroConsumer c1State LoaderError.earlyEof).2 = [] ∧
    (onLoaderError zeroConsumer c1State LoaderError.earlyEof).1.isEarlyEofReconnecting
      = false ∧
    c1State.hasOnError = true ∧
    c1RecState.isLive = false ∧ c1RecState.totalLength = some 100 ∧
    c1RecState.currentRangeTo + 1 < 100 ∧ c1RecState.hasOnError = true ∧
    (onLoaderError zeroConsumer c1RecState LoaderError.earlyEof).2 =
      [Action.cbError LoaderError.unrecoverableEarlyEof] ∧
    (onLoaderError zeroConsumer c1RecState LoaderError.earlyEof).1.isEarlyEofReconnecting
      = false := by
  refine ⟨by decide, by decide, by decide, by decide, by decide, by decide, by decide,
    by decide, by decide⟩

end

/-- `_createLoader` only (possibly) clears `_enableStash`; every other field
is untouched. -/
lemma createLoader_fields (u : IOCtl) :
    (createLoader u).isEarlyEofReconnecting = u.isEarlyEofReconnecting ∧
    (createLoader u).currentRangeFrom = u.currentRangeFrom ∧
    (createLoader u).currentRangeTo = u.currentRangeTo ∧
    (createLoader u).stashSize = u.stashSize ∧
    (createLoader u).hasOnSeeked = u.hasOnSeeked ∧
    (createLoader u).hasOnError = u.hasOnError := by
  rw [createLoader]
  split_ifs <;> exact ⟨rfl, rfl, rfl, rfl, rfl, rfl⟩

/-- `_flushStashBuffer` only touches the stash bookkeeping and (through
`_dispatchChunks`) `_currentRange.to`; the liveness, total length, reconnect
flag and callback bindings are untouched. -/
lemma flushStashBuffer_fields (C : Consumer) (st : IOCtl) (d : Bool) :
    (flushStashBuffer C st d).1.isLive = st.isLive ∧
    (flushStashBuffer C st d).1.totalLength = st.totalLength ∧
    (flushStashBuffer C st d).1.isEarlyEofReconnecting = st.isEarlyEofReconnecting ∧
    (flushStashBuffer C st d).1.hasOnError = st.hasOnError ∧
    (flushStashBuffer C st d).1.hasOnSeeked = st.hasOnSeeked ∧
    (flushStashBuffer C st d).1.stashInitialSize = st.stashInitialSize := by
  rw [flushStashBuffer]
  dsimp only [dispatchChunks]
  split_ifs <;> exact ⟨rfl, rfl, rfl, rfl, rfl, rfl⟩

/-- A non-empty stash is dispatched — at `_stashByteStart`, with the
consumer's return recorded — as the first action of every flush. -/
lemma flushStashBuffer_trace (C : Consumer) (st : IOCtl) (d : Bool)
    (hu : 0 < st.stashUsed) :
    ∃ rest, (flushStashBuffer C st d).2.1 =
      Action.dispatch (st.stashBuffer.take st.stashUsed) st.stashByteStart
        (C (st.stashBuffer.take st.stashUsed) st.stashByteStart) :: rest := by
  rw [flushStashBuffer, if_pos hu]
  dsimp only [dispatchChunks]
  split_ifs <;> exact ⟨_, rfl⟩

/-- A flush never reports an error, and with `dropUnconsumed = false` it never
logs dropped bytes either. -/
lemma flushStashBuffer_actions (C : Consumer) (st : IOCtl) (d : Bool) :
    (∀ e, Action.cbError e ∉ (flushStashBuffer C st d).2.1) ∧
    Action.throwFatal ∉ (flushStashBuffer C st d).2.1 ∧
    (d = false → ∀ r : ℕ, Action.logDropped r ∉ (flushStashBuffer C st d).2.1) := by
  rw [flushStashBuffer]
  dsimp only [dispatchChunks]
  split_ifs <;> refine ⟨fun e => by simp, by simp, fun hd r => by simp_all⟩

lemma arraySet_zero (dst src : List ℕ) : arraySet dst src 0 = src ++ dst.drop src.length := by
  simp [arraySet]

/-- `_flushStashBuffer(false)` on a partially consumed stash keeps every
unconsumed byte: the tail `buffer[consumed..used)` is compacted to the front
of the stash and `_stashByteStart` advances by exactly `consumed`. -/
lemma flushStashBuffer_noDrop_retain (C : Consumer) (st : IOCtl)
    (husedb : st.stashUsed ≤ st.bufferSize)
    (hlen : st.stashBuffer.length = st.bufferSize)
    (hclt : C (st.stashBuffer.take st.stashUsed) st.stashByteStart < st.stashUsed)
    (hcpos : 0 < C (st.stashBuffer.take st.stashUsed) st.stashByteStart) :
    (flushStashBuffer C st false).1.stashUsed =
      st.stashUsed - C (st.stashBuffer.take st.stashUsed) st.stashByteStart ∧
    (flushStashBuffer C st false).1.stashByteStart =
      st.stashByteStart + (C (st.stashBuffer.take st.stashUsed) st.stashByteStart : ℤ) ∧
    (flushStashBuffer C st false).1.stashBuffer.take
        (st.stashUsed - C (st.stashBuffer.take st.stashUsed) st.stashByteStart) =
      (st.stashBuffer.take st.stashUsed).drop
        (C (st.stashBuffer.take st.stashUsed) st.stashByteStart) := by
  have hblen : (st.stashBuffer.take st.stashUsed).length = st.stashUsed := by
    rw [List.length_take]; omega
  have hdl : ((st.stashBuffer.take st.stashUsed).drop
      (C (st.stashBuffer.take st.stashUsed) st.stashByteStart)).length =
      st.stashUsed - C (st.stashBuffer.take st.stashUsed) st.stashByteStart := by
    rw [List.length_drop, hblen]
  rw [flushStashBuffer, if_pos (show st.stashUsed > 0 by omega)]
  dsimp only [dispatchChunks]
  rw [if_pos (show C (st.stashBuffer.take st.stashUsed) st.stashByteStart <
      (st.stashBuffer.take st.stashUsed).length by rw [hblen]; exact hclt),
    if_neg (show ¬ (false = true) by simp), if_pos hcpos]
  dsimp only
  refine ⟨hdl, rfl, ?_⟩
  rw [arraySet_zero, ← hdl, List.take_left]

/-- The full action trace of `_internalSeek`: the abort of a working loader,
then the flush's dispatches, then the loader teardown/re-open, then `onSeeked`
when bound. -/
lemma internalSeek_acts_eq (C : Consumer) (st : IOCtl) (bytes : ℤ) (d : Bool) :
    (internalSeek C st bytes d).2 =
      (if st.loaderWorking = true then [Action.abortLoader] else []) ++
      (flushStashBuffer C
        (if st.loaderWorking = true then { st with loaderWorking := false } else st)
        d).2.1 ++
      [Action.destroyLoader, Action.createLoader, Action.openLoader bytes] ++
      (if st.hasOnSeeked = true then [Action.cbSeeked] else []) := by
  rw [internalSeek]
  dsimp only
  by_cases hw : st.loaderWorking = true
  · rw [if_pos hw, if_pos hw, if_pos hw]
    dsimp only
    rw [(createLoader_fields _).2.2.2.2.1]
    dsimp only
    rw [(flushStashBuffer_fields C _ d).2.2.2.2.1]
  · rw [if_neg hw, if_neg hw, if_neg hw]
    dsimp only
    rw [(createLoader_fields _).2.2.2.2.1]
    dsimp only
    rw [(flushStashBuffer_fields C _ d).2.2.2.2.1]

/-- `_internalSeek` preserves the reconnect flag and resets the range to
`{from: bytes, to: -1}` — and this holds with no assumption on the stash. -/
lemma internalSeek_state (C : Consumer) (st : IOCtl) (bytes : ℤ) (d : Bool) :
    (internalSeek C st bytes d).1.isEarlyEofReconnecting = st.isEarlyEofReconnecting ∧
    (internalSeek C st bytes d).1.currentRangeFrom = bytes ∧
    (internalSeek C st bytes d).1.currentRangeTo = -1 := by
  refine ⟨?_, ?_, ?_⟩
  · rw [internalSeek]
    dsimp only
    rw [(createLoader_fields _).1]
    dsimp only
    rw [(flushStashBuffer_fields C _ d).2.2.1]
    by_cases hw : st.loaderWorking = true
    · rw [if_pos hw]
    · rw [if_neg hw]
  · rw [internalSeek]
    dsimp only
    rw [(createLoader_fields _).2.1]
  · rw [internalSeek]
    dsimp only
    rw [(createLoader_fields _).2.2.1]

/-- `_internalSeek(bytes, false)` re-opens the loader at `bytes` and neither
reports an error nor drops stashed bytes. -/
lemma internalSeek_safe (C : Consumer) (st : IOCtl) (bytes : ℤ) :
    Action.openLoader bytes ∈ (internalSeek C st bytes false).2 ∧
    (∀ e, Action.cbError e ∉ (internalSeek C st bytes false).2) ∧
    Action.throwFatal ∉ (internalSeek C st bytes false).2 ∧
    (∀ r : ℕ, Action.logDropped r ∉ (internalSeek C st bytes false).2) := by
  have hfl := flushStashBuffer_actions C
    (if st.loaderWorking = true then { st with loaderWorking := false } else st) false
  rw [internalSeek_acts_eq]
  refine ⟨?_, ?_, ?_, ?_⟩
  · simp [List.mem_append]
  · intro e hmem
    rcases List.mem_append.1 hmem with h | h
    · rcases List.mem_append.1 h with h | h
      · rcases List.mem_append.1 h with h | h
        · revert h; split_ifs <;> simp
        · exact hfl.1 e h
      · simp at h
    · revert h; split_ifs <;> simp
  · intro hmem
    rcases List.mem_append.1 hmem with h | h
    · rcases List.mem_append.1 h with h | h
      · rcases List.mem_append.1 h with h | h
        · revert h; split_ifs <;> simp
        · exact hfl.2.1 h
      · simp at h
    · revert h; split_ifs <;> simp
  · intro r hmem
    rcases List.mem_append.1 hmem with h | h
    · rcases List.mem_append.1 h with h | h
      · rcases List.mem_append.1 h with h | h
        · revert h; split_ifs <;> simp
        · exact hfl.2.2 rfl r h
      · simp at h
    · revert h; split_ifs <;> simp

/-- Whatever the error kind and controller state, `_onLoaderError`'s trace is
the no-drop flush's trace followed by either nothing (the silent `return`), a
single error report, or the actions of an `_internalSeek(…, false)`. -/
lemma onLoaderError_acts_shape (C : Consumer) (st : IOCtl) (kind : LoaderError) :
    (onLoaderError C st kind).2 = (flushStashBuffer C st false).2.1 ∨
    (∃ e, (onLoaderError C st kind).2 =
      (flushStashBuffer C st false).2.1 ++
        [if (flushStashBuffer C st false).1.hasOnError = true then Action.cbError e
         else Action.throwFatal]) ∨
    (∃ (st' : IOCtl) (bytes : ℤ), (onLoaderError C st kind).2 =
      (flushStashBuffer C st false).2.1 ++ (internalSeek C st' bytes false).2) := by
  rw [onLoaderError]
  dsimp only
  by_cases hrec : (flushStashBuffer C st false).1.isEarlyEofReconnecting = true
  · rw [if_pos hrec]
    dsimp only
    rw [if_neg (show ¬ (LoaderError.unrecoverableEarlyEof = LoaderError.earlyEof ∧
        (flushStashBuffer C st false).1.isLive = false ∧
        totalLengthTruthy (flushStashBuffer C st false).1.totalLength = true) by simp)]
    exact Or.inr (Or.inl ⟨_, rfl⟩)
  · rw [if_neg hrec]
    dsimp only
    by_cases hc : (kind = LoaderError.earlyEof ∧
        (flushStashBuffer C st false).1.isLive = false ∧
        totalLengthTruthy (flushStashBuffer C st false).1.totalLength = true)
    · rw [if_pos hc]
      by_cases hlt : (flushStashBuffer C st false).1.currentRangeTo + 1 <
          (flushStashBuffer C st false).1.totalLength.getD 0
      · rw [if_pos hlt]
        exact Or.inr (Or.inr ⟨_, _, rfl⟩)
      · rw [if_neg hlt]
        exact Or.inl rfl
    · rw [if_neg hc]
      exact Or.inr (Or.inl ⟨_, rfl⟩)

/-- Claim C1 (corrected): `_onLoaderError` on an `EarlyEof`, over every
controller state (under the standing buffer invariants `used ≤ buffer_size`
and `|buffer| = buffer_size`): the handler first flushes the stash with
`drop_unconsumed = false` — no dropped-bytes log ever appears in the trace, a
non-empty stash is dispatched as the very first action, and partially
consumed stash bytes are retained (compacted, with `_stashByteStart` advanced
by `consumed`).  If the controller was already early-EOF-reconnecting, the
error is escalated to `UnrecoverableEarlyEof`, the flag is cleared, and it is
reported via `on_error` (or thrown when unbound).  Otherwise: with
`is_live = false` and a known (truthy) total length, the handler reconnects —
setting the flag and re-opening at `current_range.to + 1` (post-flush value)
with nothing reported — exactly when `current_range.to + 1 < total_length`,
and returns silently (no escalation, no `on_error`, no exception) when
`current_range.to + 1 ≥ total_length`; only in the live-stream and
unknown-total-length cases is the error escalated to `UnrecoverableEarlyEof`
and reported via `on_error` (or thrown when unbound). -/
theorem c1_earlyEofPolicy (C : Consumer) (st : IOCtl) (L : ℤ)
    (husedb : st.stashUsed ≤ st.bufferSize)
    (hlen : st.stashBuffer.length = st.bufferSize) :
    (∀ r : ℕ, Action.logDropped r ∉ (onLoaderError C st LoaderError.earlyEof).2) ∧
    (0 < st.stashUsed →
      ∃ rest, (onLoaderError C st LoaderError.earlyEof).2 =
        Action.dispatch (st.stashBuffer.take st.stashUsed) st.stashByteStart
          (C (st.stashBuffer.take st.stashUsed) st.stashByteStart) :: rest) ∧
    (C (st.stashBuffer.take st.stashUsed) st.stashByteStart < st.stashUsed →
     0 < C (st.stashBuffer.take st.stashUsed) st.stashByteStart →
      (flushStashBuffer C st false).1.stashUsed =
        st.stashUsed - C (st.stashBuffer.take st.stashUsed) st.stashByteStart ∧
      (flushStashBuffer C st false).1.stashByteStart =
        st.stashByteStart + (C (st.stashBuffer.take st.stashUsed) st.stashByteStart : ℤ) ∧
      (flushStashBuffer C st false).1.stashBuffer.take
          (st.stashUsed - C (st.stashBuffer.take st.stashUsed) st.stashByteStart) =
        (st.stashBuffer.take st.stashUsed).drop
          (C (st.stashBuffer.take st.stashUsed) st.stashByteStart)) ∧
    (st.isEarlyEofReconnecting = true →
      onLoaderError C st LoaderError.earlyEof =
        ({ (flushStashBuffer C st false).1 with isEarlyEofReconnecting := false },
         (flushStashBuffer C st false).2.1 ++
          [if st.hasOnError = true then Action.cbError LoaderError.unrecoverableEarlyEof
           else Action.throwFatal])) ∧
    (st.isEarlyEofReconnecting = false → st.isLive = false → st.totalLength = some L →
     L ≠ 0 → (flushStashBuffer C st false).1.currentRangeTo + 1 < L →
      (onLoaderError C st LoaderError.earlyEof).1.isEarlyEofReconnecting = true ∧
      (onLoaderError C st LoaderError.earlyEof).1.currentRangeFrom =
        (flushStashBuffer C st false).1.currentRangeTo + 1 ∧
      Action.openLoader ((flushStashBuffer C st false).1.currentRangeTo + 1) ∈
        (onLoaderError C st LoaderError.earlyEof).2 ∧
      (∀ e, Action.cbError e ∉ (onLoaderError C st LoaderError.earlyEof).2) ∧
      Action.throwFatal ∉ (onLoaderError C st LoaderError.earlyEof).2) ∧
    (st.isEarlyEofReconnecting = false → st.isLive = false → st.totalLength = some L →
     L ≠ 0 → L ≤ (flushStashBuffer C st false).1.currentRangeTo + 1 →
      onLoaderError C st LoaderError.earlyEof =
        ((flushStashBuffer C st false).1, (flushStashBuffer C st false).2.1)) ∧
    (st.isEarlyEofReconnecting = false → st.isLive = true →
      onLoaderError C st LoaderError.earlyEof =
        ((flushStashBuffer C st false).1,
         (flushStashBuffer C st false).2.1 ++
          [if st.hasOnError = true then Action.cbError LoaderError.unrecoverableEarlyEof
           else Action.throwFatal])) ∧
    (st.isEarlyEofReconnecting = false → st.totalLength = none →
      onLoaderError C st LoaderError.earlyEof =
        ((flushStashBuffer C st false).1,
         (flushStashBuffer C st false).2.1 ++
          [if st.hasOnError = true then Action.cbError LoaderError.unrecoverableEarlyEof
           else Action.throwFatal])) := by
  obtain ⟨hLiveF, hTotF, hRecF, hErrF, hSeekF, hInitF⟩ := flushStashBuffer_fields C st false
  refine ⟨?_, ?_, ?_, ?_, ?_, ?_, ?_, ?_⟩
  · intro r hmem
    rcases onLoaderError_acts_shape C st LoaderError.earlyEof with h | ⟨e, h⟩ | ⟨st', b, h⟩
    · rw [h] at hmem
      exact (flushStashBuffer_actions C st false).2.2 rfl r hmem
    · rw [h] at hmem
      rcases List.mem_append.1 hmem with hm | hm
      · exact (flushStashBuffer_actions C st false).2.2 rfl r hm
      · revert hm; split_ifs <;> simp
    · rw [h] at hmem
      rcases List.mem_append.1 hmem with hm | hm
      · exact (flushStashBuffer_actions C st false).2.2 rfl r hm
      · exact (internalSeek_safe C st' b).2.2.2 r hm
  · intro hu
    obtain ⟨rest0, htr⟩ := flushStashBuffer_trace C st false hu
    rcases onLoaderError_acts_shape C st LoaderError.earlyEof with h | ⟨e, h⟩ | ⟨st', b, h⟩
    · exact ⟨rest0, by rw [h, htr]⟩
    · exact ⟨rest0 ++ [if (flushStashBuffer C st false).1.hasOnError = true
          then Action.cbError e else Action.throwFatal],
        by rw [h, htr, List.cons_append]⟩
    · exact ⟨rest0 ++ (internalSeek C st' b false).2, by rw [h, htr, List.cons_append]⟩
  · exact fun hclt hcpos => flushStashBuffer_noDrop_retain C st husedb hlen hclt hcpos
  · intro h
    rw [onLoaderError]
    dsimp only
    rw [hRecF, if_pos h]
    dsimp only
    rw [if_neg (show ¬ (LoaderError.unrecoverableEarlyEof = LoaderError.earlyEof ∧
        (flushStashBuffer C st false).1.isLive = false ∧
        totalLengthTruthy (flushStashBuffer C st false).1.totalLength = true) by simp)]
    rw [if_neg (show ¬ (LoaderError.unrecoverableEarlyEof = LoaderError.earlyEof) by simp)]
    rw [hErrF]
  · intro hrec hl ht hL hlt
    have hres : onLoaderError C st LoaderError.earlyEof =
        ((internalSeek C
            { (flushStashBuffer C st false).1 with isEarlyEofReconnecting := true }
            ((flushStashBuffer C st false).1.currentRangeTo + 1) false).1,
         (flushStashBuffer C st false).2.1 ++
          (internalSeek C
            { (flushStashBuffer C st false).1 with isEarlyEofReconnecting := true }
            ((flushStashBuffer C st false).1.currentRangeTo + 1) false).2) := by
      rw [onLoaderError]
      dsimp only
      rw [hRecF, hrec, if_neg (show ¬ (false = true) by simp)]
      dsimp only
      rw [if_pos (show LoaderError.earlyEof = LoaderError.earlyEof ∧
            (flushStashBuffer C st false).1.isLive = false ∧
            totalLengthTruthy (flushStashBuffer C st false).1.totalLength = true from
          ⟨rfl, by rw [hLiveF]; exact hl,
           by rw [hTotF, ht]; simp [totalLengthTruthy, hL]⟩)]
      rw [if_pos (show (flushStashBuffer C st false).1.currentRangeTo + 1 <
            (flushStashBuffer C st false).1.totalLength.getD 0 by
          rw [hTotF, ht]; simpa using hlt)]
    rw [hres]
    dsimp only
    refine ⟨?_, ?_, ?_, ?_, ?_⟩
    · exact (internalSeek_state C _ _ _).1
    · exact (internalSeek_state C _ _ _).2.1
    · exact List.mem_append.2 (Or.inr (internalSeek_safe C _ _).1)
    · intro e hmem
      rcases List.mem_append.1 hmem with hm | hm
      · exact (flushStashBuffer_actions C st false).1 e hm
      · exact (internalSeek_safe C _ _).2.1 e hm
    · intro hmem
      rcases List.mem_append.1 hmem with hm | hm
      · exact (flushStashBuffer_actions C st false).2.1 hm
      · exact (internalSeek_safe C _ _).2.2.1 hm
  · intro hrec hl ht hL hge
    rw [onLoaderError]
    dsimp only
    rw [hRecF, hrec, if_neg (show ¬ (false = true) by simp)]
    dsimp only
    rw [if_pos (show LoaderError.earlyEof = LoaderError.earlyEof ∧
          (flushStashBuffer C st false).1.isLive = false ∧
          totalLengthTruthy (flushStashBuffer C st false).1.totalLength = true from
        ⟨rfl, by rw [hLiveF]; exact hl,
         by rw [hTotF, ht]; simp [totalLengthTruthy, hL]⟩)]
    rw [if_neg (show ¬ ((flushStashBuffer C st false).1.currentRangeTo + 1 <
        (flushStashBuffer C st false).1.totalLength.getD 0) by
      rw [hTotF, ht]; simp only [Option.getD_some]; omega)]
  · intro hrec hl
    rw [onLoaderError]
    dsimp only
    rw [hRecF, hrec, if_neg (show ¬ (false = true) by simp)]
    dsimp only
    rw [if_neg (show ¬ (LoaderError.earlyEof = LoaderError.earlyEof ∧
        (flushStashBuffer C st false).1.isLive = false ∧
        totalLengthTruthy (flushStashBuffer C st false).1.totalLength = true) by
      rw [hLiveF, hl]; simp)]
    rw [if_pos rfl, hErrF]
  · intro hrec ht
    rw [onLoaderError]
    dsimp only
    rw [hRecF, hrec, if_neg (show ¬ (false = true) by simp)]
    dsimp only
    rw [if_neg (show ¬ (LoaderError.earlyEof = LoaderError.earlyEof ∧
        (flushStashBuffer C st false).1.isLive = false ∧
        totalLengthTruthy (flushStashBuffer C st false).1.totalLength = true) by
      rw [hTotF, ht]; simp [totalLengthTruthy])]
    rw [if_pos rfl, hErrF]

/-- Witness for C1: at the 4-byte-stash controller `c1StashState` with a
consumer accepting 2 bytes per dispatch, the `EarlyEof` trace starts with the
stash dispatch, the flush retains the 2 unconsumed bytes, and — since the
post-flush `current_range.to + 1 = 24 < 100` — the handler reconnects. -/
theorem c1_earlyEofPolicy_witness :
    c1StashState.stashUsed ≤ c1StashState.bufferSize ∧
    c1StashState.stashBuffer.length = c1StashState.bufferSize ∧
    0 < c1StashState.stashUsed ∧
    twoConsumer (c1StashState.stashBuffer.take c1StashState.stashUsed)
        c1StashState.stashByteStart < c1StashState.stashUsed ∧
    0 < twoConsumer (c1StashState.stashBuffer.take c1StashState.stashUsed)
        c1StashState.stashByteStart ∧
    c1StashState.isEarlyEofReconnecting = false ∧
    c1StashState.isLive = false ∧ c1StashState.totalLength = some 100 ∧
    (100 : ℤ) ≠ 0 ∧
    (flushStashBuffer twoConsumer c1StashState false).1.currentRangeTo + 1 < 100 ∧
    (∃ rest, (onLoaderError twoConsumer c1StashState LoaderError.earlyEof).2 =
      Action.dispatch (c1StashState.stashBuffer.take c1StashState.stashUsed)
        c1StashState.stashByteStart
        (twoConsumer (c1StashState.stashBuffer.take c1StashState.stashUsed)
          c1StashState.stashByteStart) :: rest) ∧
    (flushStashBuffer twoConsumer c1StashState false).1.stashUsed =
      c1StashState.stashUsed -
        twoConsumer (c1StashState.stashBuffer.take c1StashState.stashUsed)
          c1StashState.stashByteStart ∧
    (onLoaderError twoConsumer c1StashState LoaderError.earlyEof).1.isEarlyEofReconnecting
      = true :=
  ⟨by decide, by decide, by decide, by decide, by decide, by decide, by decide, by decide,
   by decide, by decide,
   (c1_earlyEofPolicy twoConsumer c1StashState 100 (by decide) (by decide)).2.1 (by decide),
   ((c1_earlyEofPolicy twoConsumer c1StashState 100 (by decide) (by decide)).2.2.1
     (by decide) (by decide)).1,
   ((c1_earlyEofPolicy twoConsumer c1StashState 100 (by decide) (by decide)).2.2.2.2.1
     (by decide) (by decide) (by decide) (by decide) (by decide)).1⟩

/-! ## Helper lemmas: the `_expandBuffer` growth loop -/

/-- One unfolding step of the doubling loop. -/
lemma bufferCalcLoop_succ (fuel ns e : ℕ) :
    bufferCalcLoop (fuel + 1) ns e =
      if ns + 1024 * 1024 * 1 < e then bufferCalcLoop fuel (2 * ns) e else ns := rfl

lemma bufferCalcLoop_ge (e : ℕ) :
    ∀ (fuel ns : ℕ), 0 < ns → e ≤ ns * 2 ^ fuel + 1024 * 1024 * 1 →
      e ≤ bufferCalcLoop fuel ns e + 1024 * 1024 * 1 := by
  intro fuel
  induction fuel with
  | zero => intro ns _ h; simpa [bufferCalcLoop] using h
  | succ fuel ih =>
    intro ns hpos h
    rw [bufferCalcLoop_succ]
    by_cases hg : ns + 1024 * 1024 * 1 < e
    · rw [if_pos hg]
      refine ih (2 * ns) (by omega) ?_
      calc e ≤ ns * 2 ^ (fuel + 1) + 1024 * 1024 * 1 := h
        _ = 2 * ns * 2 ^ fuel + 1024 * 1024 * 1 := by ring
    · rw [if_neg hg]; omega

/-- With a positive stash size, the computed buffer size always reaches
`expectedBytes` (the source loop would diverge on `stash_size = 0`). -/
lemma bufferCalcSize_ge (ns e : ℕ) (h : 0 < ns) : e ≤ bufferCalcSize ns e := by
  rw [bufferCalcSize]
  have h2 : e ≤ 2 ^ e := le_of_lt (Nat.lt_two_pow e)
  have h3 : e ≤ ns * 2 ^ e := le_trans h2 (Nat.le_mul_of_pos_left _ h)
  exact bufferCalcLoop_ge e e ns h (by omega)

/-- What `_expandBuffer(expectedBytes)` does to the stash state, under the
invariants holding at every call site (`stash_size > 0`,
`used ≤ expectedBytes`, `used ≤ buffer_size`, and the buffer really has
`buffer_size` bytes). -/
lemma expandBuffer_spec (st : IOCtl) (expectedBytes : ℕ)
    (hpos : 0 < st.stashSize)
    (hused : st.stashUsed ≤ expectedBytes)
    (husedb : st.stashUsed ≤ st.bufferSize)
    (hlen : st.stashBuffer.length = st.bufferSize) :
    (expandBuffer st expectedBytes).bufferSize = bufferCalcSize st.stashSize expectedBytes ∧
    expectedBytes ≤ (expandBuffer st expectedBytes).bufferSize ∧
    (expandBuffer st expectedBytes).stashUsed = st.stashUsed ∧
    (expandBuffer st expectedBytes).stashByteStart = st.stashByteStart ∧
    (expandBuffer st expectedBytes).stashSize = st.stashSize ∧
    (expandBuffer st expectedBytes).stashBuffer.take st.stashUsed =
      st.stashBuffer.take st.stashUsed ∧
    (expandBuffer st expectedBytes).stashBuffer.length =
      (expandBuffer st expectedBytes).bufferSize := by
  have hge : expectedBytes ≤ bufferCalcSize st.stashSize expectedBytes :=
    bufferCalcSize_ge _ _ hpos
  rw [expandBuffer]
  by_cases he : bufferCalcSize st.stashSize expectedBytes = st.bufferSize
  · rw [if_pos he]
    exact ⟨he.symm, by omega, rfl, rfl, rfl, rfl, hlen⟩
  · rw [if_neg he]
    dsimp only
    by_cases hu : st.stashUsed > 0
    · rw [if_pos hu]
      have hsrclen : (st.stashBuffer.take st.stashUsed).length = st.stashUsed := by
        rw [List.length_take]; omega
      refine ⟨rfl, hge, rfl, rfl, rfl, ?_, ?_⟩
      · rw [arraySet_zero, List.take_left' hsrclen]
      · rw [arraySet_zero]
        simp only [List.length_append, List.length_drop, List.length_replicate, hsrclen]
        omega
    · rw [if_neg hu]
      have hu0 : st.stashUsed = 0 := by omega
      refine ⟨rfl, hge, rfl, rfl, rfl, by rw [hu0]; simp, by simp⟩

/-- Claim C5: `expand_buffer(expected_bytes)` computes the new size by
doubling `stash_size` while `new_size + 1 MiB < expected_bytes` and adding
1 MiB; if that equals `buffer_size` nothing changes, otherwise the buffer is
replaced by a region of the new size holding the same first `used` bytes,
`buffer_size` is updated, and `stash.byte_start`, `used` and `stash_size` are
unchanged; on return `buffer_size ≥ expected_bytes`. -/
theorem c5_expandBuffer (st : IOCtl) (expectedBytes : ℕ)
    (hpos : 0 < st.stashSize)
    (hused : st.stashUsed ≤ expectedBytes)
    (husedb : st.stashUsed ≤ st.bufferSize)
    (hlen : st.stashBuffer.length = st.bufferSize) :
    (expandBuffer st expectedBytes).bufferSize = bufferCalcSize st.stashSize expectedBytes ∧
    expectedBytes ≤ (expandBuffer st expectedBytes).bufferSize ∧
    (expandBuffer st expectedBytes).stashUsed = st.stashUsed ∧
    (expandBuffer st expectedBytes).stashByteStart = st.stashByteStart ∧
    (expandBuffer st expectedBytes).stashSize = st.stashSize ∧
    (expandBuffer st expectedBytes).stashBuffer.take st.stashUsed =
      st.stashBuffer.take st.stashUsed ∧
    (expandBuffer st expectedBytes).stashBuffer.length =
      (expandBuffer st expectedBytes).bufferSize :=
  expandBuffer_spec st expectedBytes hpos hused husedb hlen

section
attribute [local semireducible] Rat.add Rat.sub Rat.mul Rat.inv

/-- Witness for C5: expanding the small concrete state to 10 bytes. -/
theorem c5_expandBuffer_witness :
    0 < c5State.stashSize ∧ c5State.stashUsed ≤ 10 ∧
    c5State.stashUsed ≤ c5State.bufferSize ∧
    c5State.stashBuffer.length = c5State.bufferSize ∧
    10 ≤ (expandBuffer c5State 10).bufferSize :=
  ⟨by decide, by decide, by decide, by decide,
   (c5_expandBuffer c5State 10 (by decide) (by decide) (by decide) (by decide)).2.1⟩

end

/-- Counterexample to claim C6 as stated: from the default stash state
(`stash_size = 384 KiB`, `buffer_size = 3 MiB`), `_adjustStashSize(2048)` with
`is_live = false` sets `stash_size_kb = 4096` but grows the buffer to 7 MiB
(the growth policy doubles from the old 384 KiB stash size, overshooting the
5 MiB target the claim states). -/
theorem c6_counterexample :
    (adjustStashSize c6State 2048).stashSize = 4096 * 1024 ∧
    (adjustStashSize c6State 2048).bufferSize = 7340032 ∧
    (7340032 : ℕ) ≠ 4096 * 1024 + 1024 * 1024 := by
  have hcalc : bufferCalcSize 393216 5242880 = 7340032 := by
    rw [bufferCalcSize]
    rw [show (5242880:ℕ) = 5242879 + 1 from rfl, bufferCalcLoop_succ, if_pos (by norm_num)]
    rw [show (5242879:ℕ) = 5242878 + 1 from rfl, bufferCalcLoop_succ, if_pos (by norm_num)]
    rw [show (5242878:ℕ) = 5242877 + 1 from rfl, bufferCalcLoop_succ, if_pos (by norm_num)]
    rw [show (5242877:ℕ) = 5242876 + 1 from rfl, bufferCalcLoop_succ, if_pos (by norm_num)]
    rw [show (5242876:ℕ) = 5242875 + 1 from rfl, bufferCalcLoop_succ, if_neg (by norm_num)]
  have hs : c6State.stashSize = 393216 := rfl
  have hca : stashSizeKBCalc c6State.isLive 2048 = 4096 := by decide
  rw [adjustStashSize, hca]
  rw [if_neg (show ¬ (4096:ℕ) > 8192 by norm_num)]
  rw [if_pos (show c6State.bufferSize < 4096 * 1024 + 1024 * 1024 * 1 by decide)]
  rw [expandBuffer, hs, hcalc]
  rw [if_neg (show (7340032:ℕ) ≠ c6State.bufferSize by decide)]
  exact ⟨rfl, rfl, by norm_num⟩

/-- Claim C6 (corrected): `adjust_stash_size(normalized)` computes the KiB
target from the live/on-demand table, clamps it at 8192, sets
`stash_size = stash_size_kb * 1024`, and when `buffer_size` is below
`stash_size_kb * 1024 + 1 MiB` grows the buffer through `expand_buffer` to at
least that size (possibly more, since the growth doubles from the old stash
size); `used` and `byte_start` are untouched. -/
theorem c6_adjustStashSize (st : IOCtl) (normalized : ℕ)
    (hpos : 0 < st.stashSize)
    (husedb : st.stashUsed ≤ st.bufferSize)
    (hlen : st.stashBuffer.length = st.bufferSize) :
    (st.isLive = true → stashSizeKBCalc st.isLive normalized = normalized) ∧
    (st.isLive = false → normalized < 512 →
      stashSizeKBCalc st.isLive normalized = normalized) ∧
    (st.isLive = false → 512 ≤ normalized → normalized ≤ 1024 →
      stashSizeKBCalc st.isLive normalized = 3 * normalized / 2) ∧
    (st.isLive = false → 1024 < normalized →
      stashSizeKBCalc st.isLive normalized = 2 * normalized) ∧
    (adjustStashSize st normalized).stashSize =
      min (stashSizeKBCalc st.isLive normalized) 8192 * 1024 ∧
    (adjustStashSize st normalized).stashUsed = st.stashUsed ∧
    (adjustStashSize st normalized).stashByteStart = st.stashByteStart ∧
    (st.bufferSize < min (stashSizeKBCalc st.isLive normalized) 8192 * 1024 + 1024 * 1024 * 1 →
      min (stashSizeKBCalc st.isLive normalized) 8192 * 1024 + 1024 * 1024 * 1 ≤
        (adjustStashSize st normalized).bufferSize) ∧
    (¬ st.bufferSize <
        min (stashSizeKBCalc st.isLive normalized) 8192 * 1024 + 1024 * 1024 * 1 →
      (adjustStashSize st normalized).bufferSize = st.bufferSize) := by
  have hmin : (if stashSizeKBCalc st.isLive normalized > 8192 then 8192
      else stashSizeKBCalc st.isLive normalized) =
      min (stashSizeKBCalc st.isLive normalized) 8192 := by
    split_ifs with h <;> omega
  refine ⟨?_, ?_, ?_, ?_, ?_, ?_, ?_, ?_, ?_⟩
  · intro h; rw [stashSizeKBCalc, if_pos h]
  · intro h h2; rw [stashSizeKBCalc, if_neg (by simp [h]), if_pos h2]
  · intro h h2 h3
    rw [stashSizeKBCalc, if_neg (by simp [h]), if_neg (by omega), if_pos ⟨h2, h3⟩]
  · intro h h2
    rw [stashSizeKBCalc, if_neg (by simp [h]), if_neg (by omega), if_neg (by omega)]
  all_goals rw [adjustStashSize, hmin]
  all_goals dsimp only
  · split_ifs with h
    · exact (expandBuffer_spec st
        (min (stashSizeKBCalc st.isLive normalized) 8192 * 1024 + 1024 * 1024 * 1)
        hpos (by omega) husedb hlen).2.2.1
    · rfl
  · split_ifs with h
    · exact (expandBuffer_spec st
        (min (stashSizeKBCalc st.isLive normalized) 8192 * 1024 + 1024 * 1024 * 1)
        hpos (by omega) husedb hlen).2.2.2.1
    · rfl
  · intro hlt
    rw [if_pos hlt]
    exact (expandBuffer_spec st
      (min (stashSizeKBCalc st.isLive normalized) 8192 * 1024 + 1024 * 1024 * 1)
      hpos (by omega) husedb hlen).2.1
  · intro hlt
    rw [if_neg hlt]

section
attribute [local semireducible] Rat.add Rat.sub Rat.mul Rat.inv

/-- Witness for C6: the on-demand `> 1024` table row and the stash-size
assignment, applied at the default state with normalized speed 2048. -/
theorem c6_adjustStashSize_witness :
    0 < c6State.stashSize ∧ c6State.stashUsed ≤ c6State.bufferSize ∧
    c6State.isLive = false ∧ (1024:ℕ) < 2048 ∧
    stashSizeKBCalc c6State.isLive 2048 = 2 * 2048 ∧
    (adjustStashSize c6State 2048).stashSize =
      min (stashSizeKBCalc c6State.isLive 2048) 8192 * 1024 := by
  have hlen : c6State.stashBuffer.length = c6State.bufferSize := by
    show (List.replicate (1024 * 1024 * 3) 0).length = 1024 * 1024 * 3
    rw [List.length_replicate]
  refine ⟨by decide, by decide, by decide, by norm_num, ?_, ?_⟩
  · exact (c6_adjustStashSize c6State 2048 (by decide) (by decide) hlen).2.2.2.1
      (by decide) (by norm_num)
  · exact (c6_adjustStashSize c6State 2048 (by decide) (by decide) hlen).2.2.2.2.1

end

end Flv

